import Mathlib

/-!
Verification development for the BGP-Playground simulator core.

The definitions below are a shallow embedding of the Python source under
`src/app/` (the version cited by the claims): `app/models/route.py`,
`app/models/policy.py`, `app/models/as_node.py` and `app/utils/simulator.py`.

Modelling conventions:
* Python `dict`s (insertion ordered) are association lists; `insertA`
  overwrites an existing key in place and appends a fresh key at the end,
  matching `d[k] = v`; `eraseA` matches `del d[k]` (keys are never
  duplicated by these operations).
* The Python `set` of neighbors is an insertion-ordered duplicate-free
  list; the spec (sections 5 and 9) requires a deterministic enumeration
  order for nodes, peers and prefixes, and the final routing state of the
  scenarios used here is independent of that order.
* AS numbers, prefixes and scenario names are strings, as in the source;
  the routing code compares them only for equality and (in the tie-break)
  lexicographic order, which `strLt` implements on code points exactly as
  Python string comparison does.
* Python ints are `Int` (`local_pref`, `med`) or `Nat` (counters); the
  float-valued metrics are `Rat` (exact rationals; all the values needed
  by the claims are exactly representable floats as well).
* Lookups such as `self.nodes[asn]` that would raise `KeyError` on a
  config the validator rejects are modelled as no-ops; the spec states
  the core only ever receives validated configurations.
* `run` surfaces the `ValueError` for an unknown scenario as
  `Except.error`; every other path returns `Except.ok`.
-/

/-- Lexicographic comparison of char lists by code point, as Python
compares strings. -/
def chListLt : List Char → List Char → Bool
  | [], [] => false
  | [], _ :: _ => true
  | _ :: _, [] => false
  | a :: as, b :: bs =>
    if a.toNat < b.toNat then true
    else if b.toNat < a.toNat then false
    else chListLt as bs

/-- Python string `<` on the identifiers used by the simulator. -/
def strLt (a b : String) : Bool := chListLt a.data b.data

/-- Association-list lookup, modelling Python `d.get(k)` / `d[k]`. -/
def lookupA {α : Type} (k : String) : List (String × α) → Option α
  | [] => none
  | (k', v) :: r => if k' = k then some v else lookupA k r

/-- Association-list store, modelling Python `d[k] = v`: overwrite in
place when the key exists, append otherwise. -/
def insertA {α : Type} (k : String) (v : α) : List (String × α) → List (String × α)
  | [] => [(k, v)]
  | (k', v') :: r => if k' = k then (k, v) :: r else (k', v') :: insertA k v r

/-- Association-list removal, modelling Python `del d[k]`. -/
def eraseA {α : Type} (k : String) : List (String × α) → List (String × α)
  | [] => []
  | (k', v) :: r => if k' = k then eraseA k r else (k', v) :: eraseA k r

/-- Python `k in d`. -/
def containsA {α : Type} (k : String) (l : List (String × α)) : Bool :=
  (lookupA k l).isSome

/-- Python `set.add` on an insertion-ordered duplicate-free list. -/
def insertS (x : String) (s : List String) : List String :=
  if x ∈ s then s else s ++ [x]

/-- BGP origin types, from `app/models/route.py` (`OriginType`). -/
inductive OriginType
  | IGP
  | EGP
  | INCOMPLETE
deriving DecidableEq, Inhabited

/-- The explicit ordinal of an origin type (`OriginType.value` in the
source: IGP=0, EGP=1, INCOMPLETE=2). -/
def OriginType.value : OriginType → Int
  | .IGP => 0
  | .EGP => 1
  | .INCOMPLETE => 2

/-- The symbolic name of an origin type (`OriginType.name`). -/
def OriginType.nameStr : OriginType → String
  | .IGP => "IGP"
  | .EGP => "EGP"
  | .INCOMPLETE => "INCOMPLETE"

/-- A BGP route, from `app/models/route.py` (`Route.__init__`).  The
`pfx` field models the source's `prefix` attribute. -/
structure Route where
  pfx : String
  as_path : List String
  origin : OriginType := .IGP
  local_pref : Int := 100
  med : Int := 0
  next_hop : Option String := none
deriving DecidableEq, Inhabited

/-- Loop detection (`Route.has_loop`): true iff `asn` appears in
`as_path`. -/
def Route.has_loop (r : Route) (asn : String) : Bool :=
  r.as_path.contains asn

/-- Deep copy (`Route.clone`).  Values are immutable here, so the clone
is the same value; it is kept to mirror the source's call sites. -/
def Route.clone (r : Route) : Route :=
  { pfx := r.pfx, as_path := r.as_path, origin := r.origin,
    local_pref := r.local_pref, med := r.med, next_hop := r.next_hop }

/-- The externally visible form of a route (`Route.to_dict`): origin as
its symbolic name, other fields as-is. -/
structure RouteDict where
  pfx : String
  as_path : List String
  origin : String
  local_pref : Int
  med : Int
  next_hop : Option String
deriving DecidableEq, Inhabited

/-- Serialisation of a route (`Route.to_dict`). -/
def Route.to_dict (r : Route) : RouteDict :=
  { pfx := r.pfx, as_path := r.as_path, origin := r.origin.nameStr,
    local_pref := r.local_pref, med := r.med, next_hop := r.next_hop }

/-- A BGP routing policy, from `app/models/policy.py` (`Policy.__init__`):
local-pref reassignment map, ordered export filters (action, prefix),
and the AS-path prepend count. -/
structure Policy where
  local_pref_map : List (String × Int) := []
  export_filters : List (String × String) := []
  as_path_prepend : Nat := 0
deriving DecidableEq, Inhabited

/-- Import policy (`Policy.apply_import`): clone with `local_pref`
overwritten from `local_pref_map` when the sending neighbor has an
entry. -/
def Policy.apply_import (p : Policy) (r : Route) (from_asn : String) : Route :=
  let modified := r.clone
  match lookupA from_asn p.local_pref_map with
  | some v => { modified with local_pref := v }
  | none => modified

/-- The AS-path prepending loop of `Policy.apply_export`: `n` times,
insert the current head of the path (or `to_asn` when the path is
empty) at the front. -/
def prependHead (n : Nat) (l : List String) (to_asn : String) : List String :=
  match n with
  | 0 => l
  | n + 1 =>
    prependHead n ((match l with | [] => to_asn | h :: _ => h) :: l) to_asn

/-- Export policy (`Policy.apply_export`): scan `export_filters`; any
`("deny", P)` entry with `P` equal to the route's prefix filters the
route (`none`); otherwise clone and apply the prepend loop. -/
def Policy.apply_export (p : Policy) (r : Route) (to_asn : String) : Option Route :=
  if p.export_filters.any (fun af => af.1 = "deny" && af.2 = r.pfx) then none
  else
    let modified := r.clone
    some { modified with
           as_path :=
             if p.as_path_prepend > 0 then prependHead p.as_path_prepend modified.as_path to_asn
             else modified.as_path }

/-- An autonomous system node, from `app/models/as_node.py`
(`ASNode.__init__`). -/
structure ASNode where
  asn : String
  neighbors : List String := []
  rib : List (String × Route) := []
  rib_in : List (String × List (String × Route)) := []
  policy : Policy := {}
deriving DecidableEq, Inhabited

/-- Node construction (`ASNode.__init__`). -/
def ASNode.init (asn : String) (policy : Policy) : ASNode :=
  { asn := asn, neighbors := [], rib := [], rib_in := [], policy := policy }

/-- Source `ASNode.add_neighbor`: insert the peer into the neighbor set and
assign a fresh empty map to `rib_in[peer]`. -/
def ASNode.add_neighbor (n : ASNode) (neighbor_asn : String) : ASNode :=
  { n with neighbors := insertS neighbor_asn n.neighbors,
           rib_in := insertA neighbor_asn [] n.rib_in }

/-- The candidate set of `_run_decision_process`: for each peer in
`rib_in` order, its stored route for the prefix, paired with the peer. -/
def candidatesFor (n : ASNode) (p : String) : List (Route × String) :=
  n.rib_in.filterMap (fun qi => (lookupA p qi.2).map (fun r => (r, qi.1)))

/-- Stable insertion of `x` into `l` before the first element it is
strictly below; `sortByKey` with this reproduces Python's stable sort
for the strict orders used by the decision process. -/
def insOrd {α : Type} (lt : α → α → Bool) (x : α) : List α → List α
  | [] => [x]
  | y :: ys => if lt x y then x :: y :: ys else y :: insOrd lt x ys

/-- Sort modelling Python `list.sort(key=...)` for the keys used by
`_select_best_route` (which are pairwise distinct at every call). -/
def sortByKey {α : Type} (lt : α → α → Bool) (l : List α) : List α :=
  l.foldl (fun acc x => insOrd lt x acc) []

/-- The within-group sort key of `_select_best_route`: `(med, neighbor)`
ascending. -/
def medKeyLt (a b : Route × String) : Bool :=
  decide (a.1.med < b.1.med) ||
    (a.1.med == b.1.med && strLt a.2 b.2)

/-- The final comparison key of `_select_best_route`:
`(-local_pref, len(as_path), origin.value, neighbor)` ascending. -/
def selKeyLt (a b : Route × String) : Bool :=
  decide ((-a.1.local_pref) < (-b.1.local_pref)) ||
    ((-a.1.local_pref) == (-b.1.local_pref) &&
      (decide (a.1.as_path.length < b.1.as_path.length) ||
        (a.1.as_path.length == b.1.as_path.length &&
          (decide (a.1.origin.value < b.1.origin.value) ||
            (a.1.origin.value == b.1.origin.value && strLt a.2 b.2)))))

/-- Grouping step of `_select_best_route`: append a candidate to the
group of its first-hop AS, keeping first-occurrence key order. -/
def appendGroup {α : Type} (k : String) (x : α) :
    List (String × List α) → List (String × List α)
  | [] => [(k, [x])]
  | (k', xs) :: r =>
    if k' = k then (k', xs ++ [x]) :: r else (k', xs) :: appendGroup k x r

/-- Source `routes_by_first_as` of `_select_best_route`: group candidates by
`as_path[0]` (or the announcing peer for an empty path). -/
def groupByFirstAs (cands : List (Route × String)) : List (String × List (Route × String)) :=
  cands.foldl
    (fun acc c =>
      appendGroup (match c.1.as_path with | [] => c.2 | h :: _ => h) c acc) []

/-- Source `ASNode._select_best_route`: single candidate wins outright;
otherwise group by first-hop AS, take each group's `(med, neighbor)`
minimum, and sort the group winners by
`(-local_pref, len(as_path), origin.value, neighbor)`.  Returns `none`
only on an empty candidate list (the source never calls it on one). -/
def select_best_route (cands : List (Route × String)) : Option Route :=
  match cands with
  | [c] => some c.1
  | _ =>
    let groups := groupByFirstAs cands
    let best_per_as := groups.filterMap (fun g => (sortByKey medKeyLt g.2).head?)
    ((sortByKey selKeyLt best_per_as).head?).map (fun c => c.1)

/-- Source `ASNode._routes_equal`: equality on `as_path`, `local_pref` and
`origin` only (deliberately ignoring `next_hop` and `med`). -/
def routes_equal (r1 r2 : Route) : Bool :=
  r1.as_path == r2.as_path && r1.local_pref == r2.local_pref && r1.origin == r2.origin

/-- Source `ASNode._run_decision_process`: collect candidates; with none,
delete the prefix from `rib` (changed iff it was there); otherwise
select the best and install a clone unless the current entry is
`routes_equal` to it. -/
def ASNode.run_decision_process (n : ASNode) (p : String) : ASNode × Bool :=
  let cands := candidatesFor n p
  if cands.isEmpty then
    if containsA p n.rib then ({ n with rib := eraseA p n.rib }, true)
    else (n, false)
  else
    match select_best_route cands with
    | none => (n, false)
    | some best =>
      match lookupA p n.rib with
      | some old =>
        if routes_equal old best then (n, false)
        else ({ n with rib := insertA p best.clone n.rib }, true)
      | none => ({ n with rib := insertA p best.clone n.rib }, true)

/-- Source `ASNode.originate_route`: build the fresh route, store it under the
node's own ASN in `rib_in` and in `rib`, then run the decision process. -/
def ASNode.originate_route (n : ASNode) (p : String) : ASNode × Route :=
  let route : Route :=
    { pfx := p, as_path := [n.asn], origin := .IGP, local_pref := 100,
      med := 0, next_hop := some n.asn }
  let inner := (lookupA n.asn n.rib_in).getD []
  let n := { n with rib_in := insertA n.asn (insertA p route inner) n.rib_in }
  let n := { n with rib := insertA p route n.rib }
  ((n.run_decision_process p).1, route)

/-- Python truthiness of `route.next_hop` being falsy (`None` or the
empty string). -/
def nextHopFalsy : Option String → Bool
  | none => true
  | some s => s = ""

/-- Source `ASNode.receive_route`: drop looping routes, drop routes without a
next hop, apply import policy, store a clone with `next_hop`
overwritten to the sender in `rib_in[from_asn]`, and run the decision
process. -/
def ASNode.receive_route (n : ASNode) (route : Route) (from_asn : String) : ASNode × Bool :=
  if route.has_loop n.asn then (n, false)
  else if nextHopFalsy route.next_hop then (n, false)
  else
    let imported := n.policy.apply_import route from_asn
    let imported := { imported.clone with next_hop := some from_asn }
    let inner := (lookupA from_asn n.rib_in).getD []
    let n := { n with rib_in := insertA from_asn (insertA route.pfx imported inner) n.rib_in }
    n.run_decision_process route.pfx

/-- Source `ASNode.withdraw_route`: remove the peer's entry for the prefix when
present and re-run the decision process; otherwise report no change. -/
def ASNode.withdraw_route (n : ASNode) (p : String) (from_asn : String) : ASNode × Bool :=
  match lookupA from_asn n.rib_in with
  | none => (n, false)
  | some inner =>
    if containsA p inner then
      let n := { n with rib_in := insertA from_asn (eraseA p inner) n.rib_in }
      n.run_decision_process p
    else (n, false)

/-- Source `ASNode.get_routes_to_advertise`: a copy of the RIB. -/
def ASNode.get_routes_to_advertise (n : ASNode) : List (String × Route) :=
  n.rib

/-- Source `ASNode.prepare_advertisement`: split horizon on `next_hop`, export
policy, then the standard one-hop prepend of the node's own ASN (only
when not already leftmost) and `next_hop := self`. -/
def ASNode.prepare_advertisement (n : ASNode) (route : Route) (to_asn : String) : Option Route :=
  if route.next_hop = some to_asn then none
  else
    match n.policy.apply_export route to_asn with
    | none => none
    | some exported =>
      let exported := exported.clone
      let path :=
        match exported.as_path with
        | [] => [n.asn]
        | h :: t => if h ≠ n.asn then n.asn :: h :: t else h :: t
      some { exported with as_path := path, next_hop := some n.asn }

/-- A timeline event, from `BGPSimulator.log_event`: timestamp, event
type, and the optional attributes used by the source's call sites. -/
structure Event where
  timestamp : Nat
  event_type : String
  from_as : Option String := none
  to_as : Option String := none
  pfx : Option String := none
  details : Option String := none
deriving DecidableEq, Inhabited

/-- The validated simulation configuration (spec section 6), the input
of `run_simulation`.  `pfxes` models the `prefixes` field. -/
structure Config where
  nodes : List String
  links : List (String × String)
  pfxes : List String
  origin_as : String
  scenario : String := "baseline"
  hijacker : Option String := none
  flap_count : Nat := 3
  policies : List (String × Policy) := []
  max_steps : Nat := 100
deriving DecidableEq, Inhabited

/-- The simulator's mutable state (`BGPSimulator.__init__`). -/
structure SimState where
  nodes : List (String × ASNode) := []
  timeline : List Event := []
  current_step : Nat := 0
  best_route_changes_total : Nat := 0
deriving DecidableEq, Inhabited

/-- Apply `f` to the node stored at `k`, in place (`self.nodes[k]`
mutation; a no-op on a key the validator would have rejected). -/
def mapAt (k : String) (f : ASNode → ASNode) :
    List (String × ASNode) → List (String × ASNode)
  | [] => []
  | (k', v) :: r => if k' = k then (k', f v) :: r else (k', v) :: mapAt k f r

/-- Mutate one node of the simulator state. -/
def modifyNode (st : SimState) (a : String) (f : ASNode → ASNode) : SimState :=
  { st with nodes := mapAt a f st.nodes }

/-- Source `BGPSimulator.log_event`. -/
def log_event (st : SimState) (event_type : String)
    (from_as to_as p details : Option String) : SimState :=
  { st with timeline := st.timeline ++
      [{ timestamp := st.current_step, event_type := event_type,
         from_as := from_as, to_as := to_as, pfx := p, details := details }] }

/-- Source `self.current_step += 1`. -/
def bumpStep (st : SimState) : SimState :=
  { st with current_step := st.current_step + 1 }

/-- Policy chosen for a node in `build_topology`:
`Policy(policies.get(a)) if a in policies else Policy()`. -/
def policyFor (cfg : Config) (a : String) : Policy :=
  (lookupA a cfg.policies).getD {}

/-- Source `BGPSimulator.build_topology`: create each configured node with its
policy, then add both directions of every link. -/
def build_topology (cfg : Config) (st : SimState) : SimState :=
  let ns := cfg.nodes.foldl (fun acc a => insertA a (ASNode.init a (policyFor cfg a)) acc) []
  let ns := cfg.links.foldl
    (fun ns l => mapAt l.2 (fun n => n.add_neighbor l.1) (mapAt l.1 (fun n => n.add_neighbor l.2) ns)) ns
  { st with nodes := ns }

/-- The "open" events of `BGPSimulator._establish_sessions`, one per
directed peering. -/
def sessionEvents (st : SimState) : List Event :=
  st.nodes.flatMap (fun an =>
    an.2.neighbors.map (fun nb =>
      { timestamp := st.current_step, event_type := "open",
        from_as := some an.1, to_as := some nb,
        details := some "BGP session established" }))

/-- Source `BGPSimulator._establish_sessions`. -/
def establish_sessions (st : SimState) : SimState :=
  { st with timeline := st.timeline ++ sessionEvents st }

/-- A staged route update of `_propagate_until_convergence`:
`(sender, recipient, prefix, prepared advertisement)`. -/
structure Upd where
  from_as : String
  to_as : String
  pfx : String
  adv : Route
deriving DecidableEq, Inhabited

/-- The staging phase of one convergence round: for every node, every
neighbor and every RIB entry, the prepared advertisement when not
suppressed.  Staging reads the nodes and mutates nothing. -/
def stageUpdates (st : SimState) : List Upd :=
  st.nodes.flatMap (fun an =>
    an.2.neighbors.flatMap (fun nb =>
      an.2.get_routes_to_advertise.filterMap (fun pr =>
        (an.2.prepare_advertisement pr.2 nb).map
          (fun adv => { from_as := an.1, to_as := nb, pfx := pr.1, adv := adv }))))

/-- Apply one staged update: recipient's `receive_route`; on a change,
count it, log an "update" event and clear the converged flag. -/
def applyOne (acc : SimState × Bool) (u : Upd) : SimState × Bool :=
  let (st, anyCh) := acc
  match lookupA u.to_as st.nodes with
  | none => (st, anyCh)
  | some nb =>
    let (nb2, changed) := nb.receive_route u.adv u.from_as
    let st := { st with nodes := insertA u.to_as nb2 st.nodes }
    if changed then
      (log_event { st with best_route_changes_total := st.best_route_changes_total + 1 }
        "update" (some u.from_as) (some u.to_as) (some u.pfx) (some "Route update"), true)
    else (st, anyCh)

/-- The "keepalive" events sent when a round stages no updates. -/
def keepaliveEvents (st : SimState) : List Event :=
  st.nodes.flatMap (fun an =>
    an.2.neighbors.map (fun nb =>
      { timestamp := st.current_step, event_type := "keepalive",
        from_as := some an.1, to_as := some nb }))

/-- Log the keepalive events. -/
def keepalives (st : SimState) : SimState :=
  { st with timeline := st.timeline ++ keepaliveEvents st }

/-- The convergence loop of `_propagate_until_convergence`, with the
remaining iteration budget as fuel: each round bumps the step counter,
stages all updates, applies them, and stops when the staged queue was
empty (logging keepalives) or no recipient changed its best route. -/
def convergeRounds : Nat → SimState → SimState
  | 0, st => st
  | fuel + 1, st =>
    let st := bumpStep st
    let ups := stageUpdates st
    let stc := ups.foldl applyOne (st, false)
    if ups.isEmpty then keepalives stc.1
    else if stc.2 then convergeRounds fuel stc.1
    else stc.1

/-- Source `BGPSimulator._propagate_until_convergence`: up to `max_steps`
rounds. -/
def propagate_until_convergence (cfg : Config) (st : SimState) : SimState :=
  convergeRounds cfg.max_steps st

/-- One origination at the configured origin plus its "update" log
entry, as both `_run_baseline` and `_run_hijack` perform per prefix. -/
def originateAndLog (who : String) (details : String) (st : SimState) (p : String) : SimState :=
  let st := modifyNode st who (fun n => (n.originate_route p).1)
  log_event st "update" (some who) none (some p) (some details)

/-- Source `BGPSimulator._run_baseline`: the origin originates every prefix,
then updates propagate to convergence. -/
def run_baseline (cfg : Config) (st : SimState) : SimState :=
  let st := cfg.pfxes.foldl (originateAndLog cfg.origin_as "Origin announcement") st
  propagate_until_convergence cfg st

/-- Python truthiness of the configured `hijacker` value: `none` when
it is absent or the empty string. -/
def truthyStr : Option String → Option String
  | none => none
  | some s => if s = "" then none else some s

/-- Source `BGPSimulator._run_hijack`: with a falsy hijacker fall back to the
baseline scenario; otherwise originate at the origin, converge, then
originate the same prefixes at the hijacker and converge again. -/
def run_hijack (cfg : Config) (st : SimState) : SimState :=
  match truthyStr cfg.hijacker with
  | none => run_baseline cfg st
  | some hij =>
    let st := cfg.pfxes.foldl
      (originateAndLog cfg.origin_as "Legitimate origin announcement") st
    let st := propagate_until_convergence cfg (bumpStep st)
    let st := cfg.pfxes.foldl
      (originateAndLog hij "HIJACK: Malicious announcement") st
    propagate_until_convergence cfg (bumpStep st)

/-- The withdraw phase of one flap: delete each prefix straight out of
the origin's RIB (no withdraw message is propagated) and log a
"withdraw" event. -/
def flapWithdraw (cfg : Config) (i : Nat) (st : SimState) (p : String) : SimState :=
  let st := modifyNode st cfg.origin_as
    (fun n => if containsA p n.rib then { n with rib := eraseA p n.rib } else n)
  log_event st "withdraw" (some cfg.origin_as) none (some p)
    (some ("Route withdrawal (flap " ++ toString (i + 1) ++ ")"))

/-- Source `BGPSimulator._run_route_flap`: `flap_count` times, originate every
prefix and converge, then delete each prefix from the origin's RIB and
converge. -/
def run_route_flap (cfg : Config) (st : SimState) : SimState :=
  (List.range cfg.flap_count).foldl
    (fun st i =>
      let st := cfg.pfxes.foldl
        (originateAndLog cfg.origin_as ("Route announcement (flap " ++ toString (i + 1) ++ ")")) st
      let st := propagate_until_convergence cfg (bumpStep st)
      let st := cfg.pfxes.foldl (flapWithdraw cfg i) st
      propagate_until_convergence cfg (bumpStep st))
    st

/-- State after topology building, session establishment and the
configured scenario — `BGPSimulator.run` up to result generation.  An
unknown scenario name is the `ValueError` of the source. -/
def runState (cfg : Config) : Except String SimState :=
  let st := establish_sessions (build_topology cfg {})
  if cfg.scenario = "baseline" then .ok (run_baseline cfg st)
  else if cfg.scenario = "hijack" then .ok (run_hijack cfg st)
  else if cfg.scenario = "route_flap" then .ok (run_route_flap cfg st)
  else .error ("Unknown scenario: " ++ cfg.scenario)

/-- The serialised final RIBs of `_generate_results`. -/
def finalRibs (st : SimState) : List (String × List (String × RouteDict)) :=
  st.nodes.map (fun an => (an.1, an.2.rib.map (fun pr => (pr.1, pr.2.to_dict))))

/-- The `(hijacked_count, total_count)` accumulation of
`BGPSimulator._calculate_hijack_coverage`: over all non-hijacker RIB
entries, how many carry the hijacker in their path, and how many there
are in total. -/
def coverageCounts
    (ribs : List (String × List (String × RouteDict))) (hijacker : String) : Nat × Nat :=
  ribs.foldl
    (fun (acc : Nat × Nat) ar =>
      if ar.1 = hijacker then acc
      else ar.2.foldl
        (fun (acc : Nat × Nat) pr =>
          ((if hijacker ∈ pr.2.as_path then acc.1 + 1 else acc.1), acc.2 + 1)) acc)
    (0, 0)

/-- Source `BGPSimulator._calculate_hijack_coverage`: the percentage of routes
in non-hijacker RIBs whose path contains the hijacker. -/
def calculate_hijack_coverage
    (ribs : List (String × List (String × RouteDict))) (hijacker : String) : Rat :=
  let counts := coverageCounts ribs hijacker
  if counts.2 > 0 then (counts.1 : Rat) / (counts.2 : Rat) * 100 else 0

/-- The metrics record of `_calculate_metrics`; the two conditionally
present keys are `Option`s. -/
structure Metrics where
  convergence_steps : Nat
  total_updates : Nat
  total_events : Nat
  best_route_changes_total : Nat
  avg_as_path_length : Rat
  routes_learned_total : Nat
  reachable_pfx_pairs_pct : Option Rat
  hijack_coverage_pct : Option Rat
deriving DecidableEq, Inhabited

/-- Source `BGPSimulator._calculate_metrics`. -/
def calculate_metrics (cfg : Config) (st : SimState)
    (ribs : List (String × List (String × RouteDict))) : Metrics :=
  let lens := ribs.foldl
    (fun (acc : Nat × Nat) ar =>
      ar.2.foldl (fun (acc : Nat × Nat) pr => (acc.1 + pr.2.as_path.length, acc.2 + 1)) acc)
    (0, 0)
  { convergence_steps := st.current_step
    total_updates := (st.timeline.filter (fun e => e.event_type = "update")).length
    total_events := st.timeline.length
    best_route_changes_total := st.best_route_changes_total
    avg_as_path_length := if lens.2 > 0 then (lens.1 : Rat) / (lens.2 : Rat) else 0
    routes_learned_total := lens.2
    reachable_pfx_pairs_pct :=
      if cfg.pfxes.isEmpty then none
      else
        let total_pairs := st.nodes.length * cfg.pfxes.length
        let reachable := ribs.foldl
          (fun (acc : Nat) ar =>
            cfg.pfxes.foldl (fun acc p => if containsA p ar.2 then acc + 1 else acc) acc) 0
        some (if total_pairs > 0 then (reachable : Rat) / (total_pairs : Rat) * 100 else 0)
    hijack_coverage_pct :=
      if cfg.scenario = "hijack" then
        match truthyStr cfg.hijacker with
        | some hij => some (calculate_hijack_coverage ribs hij)
        | none => none
      else none }

/-- The topology record of `_generate_results`. -/
structure Topology where
  nodes : List String
  edges : List (String × String)
deriving DecidableEq, Inhabited

/-- The results record returned by `run_simulation`. -/
structure SimResults where
  timeline : List Event
  metrics : Metrics
  final_ribs : List (String × List (String × RouteDict))
  topology : Topology
deriving DecidableEq, Inhabited

/-- Source `BGPSimulator._generate_results`. -/
def generate_results (cfg : Config) (st : SimState) : SimResults :=
  let ribs := finalRibs st
  { timeline := st.timeline
    metrics := calculate_metrics cfg st ribs
    final_ribs := ribs
    topology := { nodes := st.nodes.map (fun an => an.1), edges := cfg.links } }

/-- Source `run_simulation`, the single entry point of the core:
`BGPSimulator(config).run()`. -/
def run_simulation (cfg : Config) : Except String SimResults :=
  (runState cfg).map (generate_results cfg)

/-- Whether a run completed without raising. -/
def isOkE (e : Except String SimResults) : Bool :=
  match e with
  | .ok _ => true
  | .error _ => false

/-- The linear three-AS baseline configuration of the spec's scenario 1
(and claim C1). -/
def baseCfg : Config :=
  { nodes := ["100", "200", "300"], links := [("100", "200"), ("200", "300")],
    pfxes := ["10.0.1.0/24"], origin_as := "100", scenario := "baseline" }

/-- The hijack configuration of the spec's scenario 3 (claim C3):
origin "100", hijacker "300" on the same linear topology. -/
def hijCfg : Config :=
  { baseCfg with scenario := "hijack", hijacker := some "300" }

/-- A two-node route-flap configuration with a single flap, used to
observe the state left behind by the withdraw phase. -/
def flapCfg : Config :=
  { nodes := ["100", "200"], links := [("100", "200")],
    pfxes := ["10.0.1.0/24"], origin_as := "100",
    scenario := "route_flap", flap_count := 1 }

/-- The as_path stored in the final RIB of node `a` for prefix `p`
after running `cfg` (`none` when the run fails or the entry is absent). -/
def ribPath (cfg : Config) (a p : String) : Option (List String) :=
  match run_simulation cfg with
  | .ok res => ((lookupA a res.final_ribs).bind (lookupA p)).map (fun rd => rd.as_path)
  | .error _ => none

/-- The `next_hop` stored in the final RIB of node `a` for prefix `p`. -/
def ribNextHop (cfg : Config) (a p : String) : Option (Option String) :=
  match run_simulation cfg with
  | .ok res => ((lookupA a res.final_ribs).bind (lookupA p)).map (fun rd => rd.next_hop)
  | .error _ => none

/-- The `hijack_coverage_pct` metric of a run. -/
def hijackPctOf (cfg : Config) : Option Rat :=
  match run_simulation cfg with
  | .ok res => res.metrics.hijack_coverage_pct
  | .error _ => none

/-- The post-scenario simulator state of a run (`default` on failure);
used to observe node-internal state the results record does not carry. -/
def stateOf (cfg : Config) : SimState :=
  match runState cfg with
  | .ok st => st
  | .error _ => default

/-- Node with ASN "200" whose policy prepends two copies, exporting a
learned route (claim C4's concrete input). -/
def nodePrep2 : ASNode :=
  { asn := "200", policy := { as_path_prepend := 2 } }

/-- A route learned from "100" as node "200" stores it in the linear
baseline: path `["100"]`, next hop "100". -/
def learnedFrom100 : Route :=
  { pfx := "10.0.1.0/24", as_path := ["100"], next_hop := some "100" }

/-- Export filters with a permit entry for the prefix ahead of a deny
entry for the same prefix (claim C5's concrete input). -/
def permitThenDenyPolicy : Policy :=
  { export_filters := [("permit", "10.0.1.0/24"), ("deny", "10.0.1.0/24")] }

/-- Node "100" with neighbor "200" and one route for 10.0.1.0/24
learned from "200" (claim C6's and C10's concrete input). -/
def nodeWithLearned : ASNode :=
  (((ASNode.init "100" {}).add_neighbor "200").receive_route
    { pfx := "10.0.1.0/24", as_path := ["200"], next_hop := some "200" } "200").1

/-- A route for prefix "p" via AS 200 with MED 5. -/
def routeMed5 : Route :=
  { pfx := "p", as_path := ["200"], med := 5, next_hop := some "200" }

/-- The same route with MED 7. -/
def routeMed7 : Route :=
  { pfx := "p", as_path := ["200"], med := 7, next_hop := some "200" }

/-- Node "100" after receiving `routeMed5` and then `routeMed7` from
"200": the stored best route keeps MED 5 while the decision process
now outputs the MED-7 candidate. -/
def nodeMedChurn : ASNode :=
  ((((ASNode.init "100" {}).add_neighbor "200").receive_route routeMed5 "200").1.receive_route
    routeMed7 "200").1

/-- A fresh node "100" (claim C8's receiver). -/
def node100 : ASNode := ASNode.init "100" {}

/-- A route whose path already contains "100" (claim C8's input). -/
def loopingRoute : Route :=
  { pfx := "10.0.1.0/24", as_path := ["100", "200"], next_hop := some "200" }

/-- The hijack-scenario configuration with the hijacker field absent
(claim C9's concrete input). -/
def hijacklessCfg : Config := { baseCfg with hijacker := none }

/-- The results record of a run (`default` on failure); used to name a
concrete run's output without writing the record out. -/
def resOf (cfg : Config) : SimResults :=
  match run_simulation cfg with
  | .ok res => res
  | .error _ => default

/-- Loop-freedom up to self-origination: the route's path avoids `a`
entirely, or is exactly the self-originated path `[a]`. -/
def routeSelfOk (a : String) (r : Route) : Prop :=
  a ∉ r.as_path ∨ r.as_path = [a]

/-- Every route a node stores — in its RIB or in any per-peer RIB-In —
satisfies `routeSelfOk` for the node's own ASN. -/
def nodeSelfOk (n : ASNode) : Prop :=
  (∀ pr ∈ n.rib, routeSelfOk n.asn pr.2) ∧
  (∀ qi ∈ n.rib_in, ∀ pr ∈ qi.2, routeSelfOk n.asn pr.2)

/-- The consistency condition relating a candidate list and a stored
best route: no candidates and no stored route, or the stored route
`routes_equal` to the selection over the candidates. -/
def ribOkData (cands : List (Route × String)) (cur : Option Route) : Bool :=
  match select_best_route cands, cur with
  | none, none => true
  | some best, some r => routes_equal r best
  | _, _ => false

/-- The RIB/RIB-In consistency check at one prefix: no candidates and
no RIB entry, or the stored RIB entry `routes_equal` to the decision
process output over the current candidates. -/
def ribOkAtB (n : ASNode) (p : String) : Bool :=
  ribOkData (candidatesFor n p) (lookupA p n.rib)

/-- RIB/RIB-In consistency at every prefix. -/
def ribOk (n : ASNode) : Prop :=
  ∀ p, ribOkAtB n p = true

/-- Every prefix mentioned anywhere in the node's RIB or RIB-In (the
consistency check is vacuous elsewhere). -/
def pfxKeys (n : ASNode) : List String :=
  n.rib.map (fun pr => pr.1) ++ n.rib_in.flatMap (fun qi => qi.2.map (fun pr => pr.1))

/-- Decidable form of `ribOk`, restricted to the prefixes the node
mentions. -/
def ribOkKeys (n : ASNode) : Prop :=
  ∀ p ∈ pfxKeys n, ribOkAtB n p = true

/-- A node whose RIB is empty and whose per-peer RIB-Ins are all empty
(the state every node is in right after topology building). -/
def emptyRibs (n : ASNode) : Prop :=
  n.rib = [] ∧ ∀ qi ∈ n.rib_in, qi.2 = []


theorem lookupA_insertA {α : Type} (k k' : String) (v : α) (l : List (String × α)) :
    lookupA k' (insertA k v l) = if k = k' then some v else lookupA k' l := by
  induction l with
  | nil => simp [insertA, lookupA]
  | cons hd tl ih =>
    obtain ⟨a, b⟩ := hd
    by_cases h1 : a = k
    · subst h1
      by_cases h2 : a = k'
      · subst h2
        simp [insertA, lookupA]
      · simp [insertA, lookupA, h2]
    · by_cases h2 : a = k'
      · subst h2
        have hk : ¬ k = a := fun h => h1 h.symm
        simp [insertA, lookupA, h1, hk]
      · simp [insertA, lookupA, h1, h2, ih]

theorem lookupA_eraseA {α : Type} (k k' : String) (l : List (String × α)) :
    lookupA k' (eraseA k l) = if k = k' then none else lookupA k' l := by
  induction l with
  | nil => simp [eraseA, lookupA]
  | cons hd tl ih =>
    obtain ⟨a, b⟩ := hd
    by_cases h1 : a = k
    · by_cases h2 : k = k'
      · subst h2
        simp [eraseA, lookupA, h1, ih]
      · have h3 : ¬ a = k' := fun h => h2 (h1 ▸ h)
        simp [eraseA, lookupA, h1, h2, h3, ih]
    · by_cases h2 : a = k'
      · have h1' : ¬ k' = k := fun h => h1 (h2.trans h)
        have hk : ¬ k = k' := fun h => h1' h.symm
        simp [eraseA, lookupA, h1', h2, hk]
      · simp [eraseA, lookupA, h1, h2, ih]

theorem mem_insertA {α : Type} {x : String × α} {k : String} {v : α} {l : List (String × α)}
    (h : x ∈ insertA k v l) : x = (k, v) ∨ x ∈ l := by
  induction l with
  | nil => simpa [insertA] using h
  | cons hd tl ih =>
    by_cases h1 : hd.1 = k
    · rw [insertA, if_pos h1] at h
      rcases List.mem_cons.mp h with h2 | h2
      · exact Or.inl h2
      · exact Or.inr (List.mem_cons_of_mem _ h2)
    · rw [insertA, if_neg h1] at h
      rcases List.mem_cons.mp h with h2 | h2
      · exact Or.inr (h2 ▸ List.mem_cons_self hd tl)
      · rcases ih h2 with h3 | h3
        · exact Or.inl h3
        · exact Or.inr (List.mem_cons_of_mem _ h3)

theorem mem_eraseA {α : Type} {x : String × α} {k : String} {l : List (String × α)}
    (h : x ∈ eraseA k l) : x ∈ l := by
  induction l with
  | nil => simpa [eraseA] using h
  | cons hd tl ih =>
    obtain ⟨a, b⟩ := hd
    by_cases h1 : a = k
    · rw [eraseA, if_pos h1] at h
      exact List.mem_cons_of_mem _ (ih h)
    · rw [eraseA, if_neg h1] at h
      rcases List.mem_cons.mp h with h2 | h2
      · exact h2 ▸ List.mem_cons_self _ tl
      · exact List.mem_cons_of_mem _ (ih h2)

theorem lookupA_mem {α : Type} {k : String} {v : α} {l : List (String × α)}
    (h : lookupA k l = some v) : (k, v) ∈ l := by
  induction l with
  | nil => simp [lookupA] at h
  | cons hd tl ih =>
    obtain ⟨a, b⟩ := hd
    by_cases h1 : a = k
    · subst h1
      rw [lookupA, if_pos rfl] at h
      exact List.mem_cons.mpr (Or.inl (by simpa using h.symm))
    · rw [lookupA, if_neg h1] at h
      exact List.mem_cons_of_mem _ (ih h)

theorem mem_mapAt {x : String × ASNode} {k : String} {f : ASNode → ASNode}
    {l : List (String × ASNode)} (h : x ∈ mapAt k f l) :
    x ∈ l ∨ ∃ y ∈ l, x = (y.1, f y.2) := by
  induction l with
  | nil => simp [mapAt] at h
  | cons hd tl ih =>
    by_cases h1 : hd.1 = k
    · rw [mapAt, if_pos h1] at h
      rcases List.mem_cons.mp h with h2 | h2
      · exact Or.inr ⟨hd, List.mem_cons_self hd tl, h2⟩
      · exact Or.inl (List.mem_cons_of_mem _ h2)
    · rw [mapAt, if_neg h1] at h
      rcases List.mem_cons.mp h with h2 | h2
      · exact Or.inl (h2 ▸ List.mem_cons_self hd tl)
      · rcases ih h2 with h3 | ⟨y, hy, hxy⟩
        · exact Or.inl (List.mem_cons_of_mem _ h3)
        · exact Or.inr ⟨y, List.mem_cons_of_mem _ hy, hxy⟩

theorem mem_insOrd {α : Type} {lt : α → α → Bool} {x y : α} {l : List α}
    (h : x ∈ insOrd lt y l) : x = y ∨ x ∈ l := by
  induction l with
  | nil => simpa [insOrd] using h
  | cons hd tl ih =>
    by_cases h1 : lt y hd
    · rw [insOrd, if_pos h1] at h
      rcases List.mem_cons.mp h with h2 | h2
      · exact Or.inl h2
      · exact Or.inr h2
    · rw [insOrd, if_neg h1] at h
      rcases List.mem_cons.mp h with h2 | h2
      · exact Or.inr (h2 ▸ List.mem_cons_self hd tl)
      · rcases ih h2 with h3 | h3
        · exact Or.inl h3
        · exact Or.inr (List.mem_cons_of_mem _ h3)

theorem mem_foldl_insOrd {α : Type} {lt : α → α → Bool} {x : α} :
    ∀ {l acc : List α}, x ∈ l.foldl (fun acc y => insOrd lt y acc) acc → x ∈ acc ∨ x ∈ l := by
  intro l
  induction l with
  | nil => intro acc h; exact Or.inl h
  | cons hd tl ih =>
    intro acc h
    rcases ih h with h' | h'
    · rcases mem_insOrd h' with h'' | h''
      · exact Or.inr (h'' ▸ List.mem_cons_self hd tl)
      · exact Or.inl h''
    · exact Or.inr (List.mem_cons_of_mem _ h')

theorem mem_sortByKey {α : Type} {lt : α → α → Bool} {x : α} {l : List α}
    (h : x ∈ sortByKey lt l) : x ∈ l := by
  rcases mem_foldl_insOrd h with h' | h'
  · simp at h'
  · exact h'

theorem mem_of_head? {α : Type} {x : α} {l : List α} (h : l.head? = some x) : x ∈ l := by
  cases l with
  | nil => simp at h
  | cons hd tl =>
    simp only [List.head?] at h
    exact (Option.some.inj h) ▸ List.mem_cons_self hd tl

theorem mem_appendGroup {α : Type} {g : String × List α} {k : String} {x : α}
    {gs : List (String × List α)} (hg : g ∈ appendGroup k x gs) :
    ∀ y ∈ g.2, y = x ∨ ∃ g' ∈ gs, y ∈ g'.2 := by
  induction gs with
  | nil =>
    intro y hy
    simp [appendGroup] at hg
    subst hg
    simp at hy
    exact Or.inl hy
  | cons hd tl ih =>
    intro y hy
    by_cases h1 : hd.1 = k
    · rw [appendGroup, if_pos h1] at hg
      rcases List.mem_cons.mp hg with h2 | h2
      · subst h2
        simp only [List.mem_append, List.mem_singleton] at hy
        rcases hy with hy | hy
        · exact Or.inr ⟨hd, List.mem_cons_self hd tl, hy⟩
        · exact Or.inl hy
      · exact Or.inr ⟨g, List.mem_cons_of_mem _ h2, hy⟩
    · rw [appendGroup, if_neg h1] at hg
      rcases List.mem_cons.mp hg with h2 | h2
      · exact Or.inr ⟨g, h2 ▸ List.mem_cons_self hd tl, hy⟩
      · rcases ih h2 y hy with h3 | ⟨g', hg', hy'⟩
        · exact Or.inl h3
        · exact Or.inr ⟨g', List.mem_cons_of_mem _ hg', hy'⟩

theorem mem_groupAcc {α : Type} {f : α → String} {g : String × List α} :
    ∀ {cands : List α} {acc : List (String × List α)},
      g ∈ cands.foldl (fun acc c => appendGroup (f c) c acc) acc →
      ∀ y ∈ g.2, (∃ g' ∈ acc, y ∈ g'.2) ∨ y ∈ cands := by
  intro cands
  induction cands with
  | nil =>
    intro acc hg y hy
    exact Or.inl ⟨g, hg, hy⟩
  | cons hd tl ih =>
    intro acc hg y hy
    rcases ih hg y hy with ⟨g', hg', hy'⟩ | h2
    · rcases mem_appendGroup hg' y hy' with h3 | ⟨g'', hg'', hy''⟩
      · exact Or.inr (h3 ▸ List.mem_cons_self hd tl)
      · exact Or.inl ⟨g'', hg'', hy''⟩
    · exact Or.inr (List.mem_cons_of_mem _ h2)

theorem mem_groupByFirstAs {g : String × List (Route × String)}
    {cands : List (Route × String)} (hg : g ∈ groupByFirstAs cands) :
    ∀ y ∈ g.2, y ∈ cands := by
  intro y hy
  rcases mem_groupAcc hg y hy with ⟨g', hg', _⟩ | h2
  · simp at hg'
  · exact h2

theorem select_best_route_mem {cands : List (Route × String)} {r : Route}
    (h : select_best_route cands = some r) : ∃ nb, (r, nb) ∈ cands := by
  match cands with
  | [] => simp [select_best_route, groupByFirstAs, sortByKey] at h
  | [c] =>
    simp only [select_best_route, Option.some.injEq] at h
    exact ⟨c.2, h ▸ List.mem_singleton.mpr rfl⟩
  | c1 :: c2 :: rest =>
    simp only [select_best_route, Option.map_eq_some'] at h
    obtain ⟨x, hx, hxr⟩ := h
    have hx' := mem_sortByKey (mem_of_head? hx)
    obtain ⟨g, hg, hgx⟩ := List.mem_filterMap.mp hx'
    have hxg : x ∈ g.2 := mem_sortByKey (mem_of_head? hgx)
    have : x ∈ c1 :: c2 :: rest := mem_groupByFirstAs hg x hxg
    exact ⟨x.2, by
      have : (x.1, x.2) ∈ c1 :: c2 :: rest := by simpa using this
      exact hxr ▸ this⟩

theorem appendGroup_ne_nil {α : Type} (k : String) (x : α) (gs : List (String × List α)) :
    appendGroup k x gs ≠ [] := by
  cases gs with
  | nil => simp [appendGroup]
  | cons hd tl =>
    rw [appendGroup]
    split <;> simp

theorem foldl_appendGroup_ne_nil {α : Type} {f : α → String} :
    ∀ {cands : List α} {acc : List (String × List α)},
      (acc ≠ [] ∨ cands ≠ []) →
      cands.foldl (fun acc c => appendGroup (f c) c acc) acc ≠ [] := by
  intro cands
  induction cands with
  | nil =>
    intro acc h
    rcases h with h | h
    · exact h
    · exact absurd rfl h
  | cons hd tl ih =>
    intro acc _
    exact ih (Or.inl (appendGroup_ne_nil (f hd) hd acc))

theorem nonnilGroups_appendGroup {α : Type} {g : String × List α} {k : String} {x : α}
    {gs : List (String × List α)} (hall : ∀ g' ∈ gs, g'.2 ≠ [])
    (hg : g ∈ appendGroup k x gs) : g.2 ≠ [] := by
  induction gs with
  | nil =>
    simp [appendGroup] at hg
    subst hg
    simp
  | cons hd tl ih =>
    by_cases h1 : hd.1 = k
    · rw [appendGroup, if_pos h1] at hg
      rcases List.mem_cons.mp hg with h2 | h2
      · subst h2
        simp
      · exact hall g (List.mem_cons_of_mem _ h2)
    · rw [appendGroup, if_neg h1] at hg
      rcases List.mem_cons.mp hg with h2 | h2
      · exact h2 ▸ hall hd (List.mem_cons_self hd tl)
      · exact ih (fun g' hg' => hall g' (List.mem_cons_of_mem _ hg')) h2

theorem nonnilGroups_foldl {α : Type} {f : α → String} :
    ∀ {cands : List α} {acc : List (String × List α)},
      (∀ g' ∈ acc, g'.2 ≠ []) →
      ∀ g ∈ cands.foldl (fun acc c => appendGroup (f c) c acc) acc, g.2 ≠ [] := by
  intro cands
  induction cands with
  | nil => intro acc hall g hg; exact hall g hg
  | cons hd tl ih =>
    intro acc hall g hg
    exact ih (fun g' hg' => nonnilGroups_appendGroup hall hg') g hg

theorem insOrd_ne_nil {α : Type} (lt : α → α → Bool) (x : α) (l : List α) :
    insOrd lt x l ≠ [] := by
  cases l with
  | nil => simp [insOrd]
  | cons hd tl =>
    rw [insOrd]
    split <;> simp

theorem sortByKey_ne_nil {α : Type} {lt : α → α → Bool} :
    ∀ {l acc : List α}, (acc ≠ [] ∨ l ≠ []) →
      l.foldl (fun acc x => insOrd lt x acc) acc ≠ [] := by
  intro l
  induction l with
  | nil =>
    intro acc h
    rcases h with h | h
    · exact h
    · exact absurd rfl h
  | cons hd tl ih =>
    intro acc _
    exact ih (Or.inl (insOrd_ne_nil lt hd acc))

theorem head?_isSome_of_ne_nil {α : Type} {l : List α} (h : l ≠ []) :
    ∃ x, l.head? = some x := by
  cases l with
  | nil => exact absurd rfl h
  | cons hd tl => exact ⟨hd, rfl⟩

theorem select_best_route_isSome {cands : List (Route × String)} (h : cands ≠ []) :
    ∃ r, select_best_route cands = some r := by
  match cands with
  | [] => exact absurd rfl h
  | [c] => exact ⟨c.1, rfl⟩
  | c1 :: c2 :: rest =>
    have hgroups : groupByFirstAs (c1 :: c2 :: rest) ≠ [] :=
      foldl_appendGroup_ne_nil (Or.inr (by simp))
    have hnonnil : ∀ g ∈ groupByFirstAs (c1 :: c2 :: rest), g.2 ≠ [] :=
      nonnilGroups_foldl (by simp)
    have hbpa : (groupByFirstAs (c1 :: c2 :: rest)).filterMap
        (fun g => (sortByKey medKeyLt g.2).head?) ≠ [] := by
      obtain ⟨g0, gs, hgs⟩ := List.exists_cons_of_ne_nil hgroups
      rw [hgs]
      have hg0 : g0.2 ≠ [] := hnonnil g0 (hgs ▸ List.mem_cons_self g0 gs)
      have hsort : sortByKey medKeyLt g0.2 ≠ [] := sortByKey_ne_nil (Or.inr hg0)
      obtain ⟨y, hy⟩ := head?_isSome_of_ne_nil hsort
      simp only [List.filterMap_cons, hy]
      simp
    have hsorted : sortByKey selKeyLt ((groupByFirstAs (c1 :: c2 :: rest)).filterMap
        (fun g => (sortByKey medKeyLt g.2).head?)) ≠ [] :=
      sortByKey_ne_nil (Or.inr hbpa)
    obtain ⟨y, hy⟩ := head?_isSome_of_ne_nil hsorted
    exact ⟨y.1, by simp only [select_best_route, hy, Option.map_some']⟩


theorem select_best_route_nil : select_best_route [] = none := rfl

theorem routes_equal_clone (r : Route) : routes_equal r.clone r = true := by
  simp [routes_equal, Route.clone]

theorem clone_as_path (r : Route) : r.clone.as_path = r.as_path := rfl

theorem apply_import_as_path (p : Policy) (r : Route) (f : String) :
    (p.apply_import r f).as_path = r.as_path := by
  unfold Policy.apply_import
  split <;> rfl

theorem rdp_spec (n : ASNode) (p : String) :
    ∃ R, (n.run_decision_process p).1 = { n with rib := R } ∧
      (R = n.rib ∨ R = eraseA p n.rib ∨
        ∃ best, select_best_route (candidatesFor n p) = some best ∧
          R = insertA p best.clone n.rib) := by
  by_cases hemp : (candidatesFor n p).isEmpty
  · by_cases hct : containsA p n.rib
    · refine ⟨eraseA p n.rib, ?_, Or.inr (Or.inl rfl)⟩
      unfold ASNode.run_decision_process
      simp [hemp, hct]
    · refine ⟨n.rib, ?_, Or.inl rfl⟩
      unfold ASNode.run_decision_process
      simp [hemp, hct]
  · have hne : candidatesFor n p ≠ [] := fun h => hemp (h ▸ rfl)
    obtain ⟨best, hbest⟩ := select_best_route_isSome hne
    rcases hold : lookupA p n.rib with _ | old
    · refine ⟨insertA p best.clone n.rib, ?_, Or.inr (Or.inr ⟨best, hbest, rfl⟩)⟩
      unfold ASNode.run_decision_process
      simp [hemp, hbest, hold]
    · by_cases heq : routes_equal old best
      · refine ⟨n.rib, ?_, Or.inl rfl⟩
        unfold ASNode.run_decision_process
        simp [hemp, hbest, hold, heq]
      · refine ⟨insertA p best.clone n.rib, ?_, Or.inr (Or.inr ⟨best, hbest, rfl⟩)⟩
        unfold ASNode.run_decision_process
        simp [hemp, hbest, hold, heq]

theorem rdp_asn (n : ASNode) (p : String) :
    ((n.run_decision_process p).1).asn = n.asn := by
  obtain ⟨R, hR, _⟩ := rdp_spec n p
  rw [hR]

theorem rdp_rib_in (n : ASNode) (p : String) :
    ((n.run_decision_process p).1).rib_in = n.rib_in := by
  obtain ⟨R, hR, _⟩ := rdp_spec n p
  rw [hR]

theorem candidatesFor_eq_of_rib_in {n1 n2 : ASNode} (h : n1.rib_in = n2.rib_in)
    (p : String) : candidatesFor n1 p = candidatesFor n2 p := by
  unfold candidatesFor
  rw [h]

theorem rdp_rib_lookup_other (n : ASNode) (p q : String) (hq : ¬ p = q) :
    lookupA q ((n.run_decision_process p).1).rib = lookupA q n.rib := by
  obtain ⟨R, hR, hc⟩ := rdp_spec n p
  rw [hR]
  rcases hc with hc | hc | ⟨best, _, hc⟩
  · rw [hc]
  · rw [hc]
    simp [lookupA_eraseA, hq]
  · rw [hc]
    simp [lookupA_insertA, hq]

theorem ribOkAtB_set_rib (n : ASNode) (R : List (String × Route)) (p : String) :
    ribOkAtB { n with rib := R } p = ribOkData (candidatesFor n p) (lookupA p R) := rfl

theorem ribOkAtB_congr {n1 n2 : ASNode} (p : String)
    (hc : candidatesFor n1 p = candidatesFor n2 p)
    (hr : lookupA p n1.rib = lookupA p n2.rib) :
    ribOkAtB n1 p = ribOkAtB n2 p := by
  unfold ribOkAtB
  rw [hc, hr]

theorem ribOkAtB_rdp_other (n : ASNode) (p q : String) (hq : ¬ p = q) :
    ribOkAtB ((n.run_decision_process p).1) q = ribOkAtB n q :=
  ribOkAtB_congr q (candidatesFor_eq_of_rib_in (rdp_rib_in n p) q)
    (rdp_rib_lookup_other n p q hq)

theorem containsA_false_lookupA {α : Type} {p : String} {l : List (String × α)}
    (h : containsA p l = false) : lookupA p l = none := by
  unfold containsA at h
  exact Option.not_isSome_iff_eq_none.mp (by simp [h])

theorem ribOkAtB_rdp_self (n : ASNode) (p : String) :
    ribOkAtB ((n.run_decision_process p).1) p = true := by
  by_cases hemp : (candidatesFor n p).isEmpty
  · have hnil : candidatesFor n p = [] := List.isEmpty_iff.mp hemp
    by_cases hct : containsA p n.rib
    · have h1 : (n.run_decision_process p).1 = { n with rib := eraseA p n.rib } := by
        unfold ASNode.run_decision_process
        simp [hemp, hct]
      rw [h1, ribOkAtB_set_rib, hnil, lookupA_eraseA]
      simp [ribOkData, select_best_route_nil]
    · have h1 : (n.run_decision_process p).1 = n := by
        unfold ASNode.run_decision_process
        simp [hemp, hct]
      rw [h1]
      unfold ribOkAtB
      rw [hnil, containsA_false_lookupA (by simpa using hct)]
      simp [ribOkData, select_best_route_nil]
  · have hne : candidatesFor n p ≠ [] := fun h => hemp (h ▸ rfl)
    obtain ⟨best, hbest⟩ := select_best_route_isSome hne
    rcases hold : lookupA p n.rib with _ | old
    · have h1 : (n.run_decision_process p).1 = { n with rib := insertA p best.clone n.rib } := by
        unfold ASNode.run_decision_process
        simp [hemp, hbest, hold]
      rw [h1, ribOkAtB_set_rib]
      simp [ribOkData, hbest, lookupA_insertA, routes_equal_clone]
    · by_cases heq : routes_equal old best
      · have h1 : (n.run_decision_process p).1 = n := by
          unfold ASNode.run_decision_process
          simp [hemp, hbest, hold, heq]
        rw [h1]
        unfold ribOkAtB
        rw [hold]
        simpa [ribOkData, hbest] using heq
      · have h1 : (n.run_decision_process p).1 = { n with rib := insertA p best.clone n.rib } := by
          unfold ASNode.run_decision_process
          simp [hemp, hbest, hold, heq]
        rw [h1, ribOkAtB_set_rib]
        simp [ribOkData, hbest, lookupA_insertA, routes_equal_clone]

theorem filterMap_cands_insertA (p k : String) (inner : List (String × Route)) :
    ∀ (l : List (String × List (String × Route))),
      lookupA p inner = lookupA p ((lookupA k l).getD []) →
      (insertA k inner l).filterMap (fun qi => (lookupA p qi.2).map (fun r => (r, qi.1))) =
        l.filterMap (fun qi => (lookupA p qi.2).map (fun r => (r, qi.1))) := by
  intro l
  induction l with
  | nil =>
    intro h
    rw [lookupA] at h
    simp only [Option.getD, lookupA] at h
    simp [insertA, List.filterMap, h]
  | cons hd tl ih =>
    obtain ⟨a, inn⟩ := hd
    intro h
    by_cases h1 : a = k
    · rw [lookupA, if_pos h1] at h
      simp only [Option.getD] at h
      rw [insertA, if_pos h1]
      simp only [List.filterMap_cons, h, h1]
    · rw [lookupA, if_neg h1] at h
      rw [insertA, if_neg h1]
      simp only [List.filterMap_cons, ih h]

theorem candidatesFor_insert_inner (n : ASNode) (k : String) (inner : List (String × Route))
    (p : String) (h : lookupA p inner = lookupA p ((lookupA k n.rib_in).getD [])) :
    candidatesFor { n with rib_in := insertA k inner n.rib_in } p = candidatesFor n p :=
  filterMap_cands_insertA p k inner n.rib_in h

theorem ribOk_receive (n : ASNode) (r : Route) (frm : String) (h : ribOk n) :
    ribOk ((n.receive_route r frm).1) := by
  unfold ASNode.receive_route
  by_cases hl : r.has_loop n.asn
  · simpa [hl] using h
  · by_cases hnh : nextHopFalsy r.next_hop
    · simpa [hl, hnh] using h
    · simp only [hl, hnh, Bool.false_eq_true, if_false]
      intro p
      by_cases hp : r.pfx = p
      · subst hp
        exact ribOkAtB_rdp_self _ _
      · rw [ribOkAtB_rdp_other _ _ _ hp]
        rw [ribOkAtB_congr p
          (candidatesFor_insert_inner n frm _ p (by simp [lookupA_insertA, hp]))
          rfl]
        exact h p

theorem ribOk_originate (n : ASNode) (p : String) (h : ribOk n) :
    ribOk ((n.originate_route p).1) := by
  unfold ASNode.originate_route
  intro q
  by_cases hpq : p = q
  · subst hpq
    exact ribOkAtB_rdp_self _ _
  · rw [ribOkAtB_rdp_other _ _ _ hpq]
    refine Eq.trans (ribOkAtB_congr q ?_ ?_) (h q)
    · exact candidatesFor_insert_inner n n.asn _ q (by simp [lookupA_insertA, hpq])
    · simp [lookupA_insertA, hpq]

theorem ribOk_withdraw (n : ASNode) (p : String) (frm : String) (h : ribOk n) :
    ribOk ((n.withdraw_route p frm).1) := by
  unfold ASNode.withdraw_route
  rcases hfr : lookupA frm n.rib_in with _ | inner
  · exact h
  · by_cases hct : containsA p inner
    · simp only [hct, if_true]
      intro q
      by_cases hpq : p = q
      · subst hpq
        exact ribOkAtB_rdp_self _ _
      · rw [ribOkAtB_rdp_other _ _ _ hpq]
        rw [ribOkAtB_congr q
          (candidatesFor_insert_inner n frm _ q
            (by rw [hfr]; simp [lookupA_eraseA, hpq]))
          rfl]
        exact h q
    · simpa [hct] using h

theorem emptyRibs_init (a : String) (pol : Policy) : emptyRibs (ASNode.init a pol) := by
  constructor
  · rfl
  · intro qi hqi
    simp [ASNode.init] at hqi

theorem emptyRibs_add_neighbor {n : ASNode} (b : String) (h : emptyRibs n) :
    emptyRibs (n.add_neighbor b) := by
  constructor
  · exact h.1
  · intro qi hqi
    rcases mem_insertA hqi with h2 | h2
    · rw [h2]
    · exact h.2 qi h2

theorem filterMap_cands_empty (p : String) {l : List (String × List (String × Route))}
    (h : ∀ qi ∈ l, qi.2 = []) :
    l.filterMap (fun qi => (lookupA p qi.2).map (fun r => (r, qi.1))) = [] := by
  induction l with
  | nil => rfl
  | cons hd tl ih =>
    rw [List.filterMap_cons]
    rw [h hd (List.mem_cons_self hd tl)]
    simp only [lookupA, Option.map_none']
    exact ih (fun qi hqi => h qi (List.mem_cons_of_mem _ hqi))

theorem ribOk_of_emptyRibs {n : ASNode} (h : emptyRibs n) : ribOk n := by
  intro p
  unfold ribOkAtB
  rw [show candidatesFor n p = [] from filterMap_cands_empty p h.2, h.1]
  simp [ribOkData, select_best_route_nil, lookupA]

theorem routeSelfOk_clone (a : String) (r : Route) (h : routeSelfOk a r) :
    routeSelfOk a r.clone := h

theorem selected_mem_rib_in {n : ASNode} {p : String} {best : Route}
    (h : select_best_route (candidatesFor n p) = some best) :
    ∃ qi ∈ n.rib_in, (p, best) ∈ qi.2 := by
  obtain ⟨nb, hmem⟩ := select_best_route_mem h
  obtain ⟨qi, hqi, hf⟩ := List.mem_filterMap.mp hmem
  obtain ⟨r', hr', hpair⟩ := Option.map_eq_some'.mp hf
  have : r' = best := congrArg Prod.fst hpair
  subst this
  exact ⟨qi, hqi, lookupA_mem hr'⟩

theorem nodeSelfOk_rdp (n : ASNode) (p : String) (h : nodeSelfOk n) :
    nodeSelfOk ((n.run_decision_process p).1) := by
  obtain ⟨R, hR, hc⟩ := rdp_spec n p
  rw [hR]
  constructor
  · intro pr hpr
    rcases hc with hc | hc | ⟨best, hbest, hc⟩
    · exact h.1 pr (hc ▸ hpr)
    · exact h.1 pr (mem_eraseA (hc ▸ hpr))
    · rcases mem_insertA (hc ▸ hpr) with h2 | h2
      · obtain ⟨qi, hqi, hmem⟩ := selected_mem_rib_in hbest
        have := h.2 qi hqi (p, best) hmem
        rw [h2]
        exact routeSelfOk_clone _ _ this
      · exact h.1 pr h2
  · exact h.2

theorem nodeSelfOk_init (a : String) (pol : Policy) : nodeSelfOk (ASNode.init a pol) := by
  constructor
  · intro pr hpr
    simp [ASNode.init] at hpr
  · intro qi hqi
    simp [ASNode.init] at hqi

theorem nodeSelfOk_add_neighbor {n : ASNode} (b : String) (h : nodeSelfOk n) :
    nodeSelfOk (n.add_neighbor b) := by
  constructor
  · exact h.1
  · intro qi hqi pr hpr
    rcases mem_insertA hqi with h2 | h2
    · rw [h2] at hpr
      simp at hpr
    · exact h.2 qi h2 pr hpr

theorem nodeSelfOk_receive (n : ASNode) (r : Route) (frm : String) (h : nodeSelfOk n) :
    nodeSelfOk ((n.receive_route r frm).1) := by
  unfold ASNode.receive_route
  by_cases hl : r.has_loop n.asn
  · simpa [hl] using h
  · by_cases hnh : nextHopFalsy r.next_hop
    · simpa [hl, hnh] using h
    · simp only [hl, hnh, Bool.false_eq_true, if_false]
      apply nodeSelfOk_rdp
      have hpath : n.asn ∉ r.as_path := by
        simpa [Route.has_loop] using hl
      constructor
      · exact h.1
      · intro qi hqi pr hpr
        rcases mem_insertA hqi with h2 | h2
        · rw [h2] at hpr
          rcases mem_insertA hpr with h3 | h3
          · rw [h3]
            exact Or.inl (by
              show n.asn ∉ (((n.policy.apply_import r frm).clone).as_path)
              rw [clone_as_path, apply_import_as_path]
              exact hpath)
          · rcases hfr : lookupA frm n.rib_in with _ | inner
            · rw [hfr] at h3
              simp [Option.getD] at h3
            · rw [hfr] at h3
              simp only [Option.getD] at h3
              exact h.2 (frm, inner) (lookupA_mem hfr) pr h3
        · exact h.2 qi h2 pr hpr

theorem nodeSelfOk_originate (n : ASNode) (p : String) (h : nodeSelfOk n) :
    nodeSelfOk ((n.originate_route p).1) := by
  unfold ASNode.originate_route
  apply nodeSelfOk_rdp
  have hroute : routeSelfOk n.asn
      { pfx := p, as_path := [n.asn], origin := .IGP, local_pref := 100,
        med := 0, next_hop := some n.asn } := Or.inr rfl
  constructor
  · intro pr hpr
    rcases mem_insertA hpr with h2 | h2
    · rw [h2]
      exact hroute
    · exact h.1 pr h2
  · intro qi hqi pr hpr
    rcases mem_insertA hqi with h2 | h2
    · rw [h2] at hpr
      rcases mem_insertA hpr with h3 | h3
      · rw [h3]
        exact hroute
      · rcases hfr : lookupA n.asn n.rib_in with _ | inner
        · rw [hfr] at h3
          simp [Option.getD] at h3
        · rw [hfr] at h3
          simp only [Option.getD] at h3
          exact h.2 (n.asn, inner) (lookupA_mem hfr) pr h3
    · exact h.2 qi h2 pr hpr

theorem nodeSelfOk_withdraw (n : ASNode) (p : String) (frm : String) (h : nodeSelfOk n) :
    nodeSelfOk ((n.withdraw_route p frm).1) := by
  unfold ASNode.withdraw_route
  rcases hfr : lookupA frm n.rib_in with _ | inner
  · exact h
  · by_cases hct : containsA p inner
    · simp only [hct, if_true]
      apply nodeSelfOk_rdp
      constructor
      · exact h.1
      · intro qi hqi pr hpr
        rcases mem_insertA hqi with h2 | h2
        · rw [h2] at hpr
          exact h.2 (frm, inner) (lookupA_mem hfr) pr (mem_eraseA hpr)
        · exact h.2 qi h2 pr hpr
    · simpa [hct] using h

theorem nodeSelfOk_erase_rib (n : ASNode) (p : String) (h : nodeSelfOk n) :
    nodeSelfOk { n with rib := eraseA p n.rib } := by
  constructor
  · intro pr hpr
    exact h.1 pr (mem_eraseA hpr)
  · exact h.2

theorem asn_rdp (n : ASNode) (p : String) :
    ((n.run_decision_process p).1).asn = n.asn := rdp_asn n p

theorem asn_receive (n : ASNode) (r : Route) (frm : String) :
    ((n.receive_route r frm).1).asn = n.asn := by
  unfold ASNode.receive_route
  by_cases hl : r.has_loop n.asn
  · simp [hl]
  · by_cases hnh : nextHopFalsy r.next_hop
    · simp [hl, hnh]
    · simp only [hl, hnh, Bool.false_eq_true, if_false]
      rw [rdp_asn]

theorem asn_originate (n : ASNode) (p : String) :
    ((n.originate_route p).1).asn = n.asn := by
  unfold ASNode.originate_route
  rw [rdp_asn]

theorem asn_withdraw (n : ASNode) (p : String) (frm : String) :
    ((n.withdraw_route p frm).1).asn = n.asn := by
  unfold ASNode.withdraw_route
  rcases hfr : lookupA frm n.rib_in with _ | inner
  · rfl
  · by_cases hct : containsA p inner
    · simp only [hct, if_true]
      rw [rdp_asn]
    · simp [hct]


theorem foldl_preserve {α β : Type} (Q : α → Prop) {f : α → β → α}
    (hf : ∀ a b, Q a → Q (f a b)) :
    ∀ (l : List β) (a : α), Q a → Q (l.foldl f a) := by
  intro l
  induction l with
  | nil => intro a h; exact h
  | cons hd tl ih => intro a h; exact ih _ (hf a hd h)

theorem allP_mapAt {P : String × ASNode → Prop} {k : String} {f : ASNode → ASNode}
    (hf : ∀ a m, P (a, m) → P (a, f m)) {ns : List (String × ASNode)}
    (h : ∀ x ∈ ns, P x) : ∀ x ∈ mapAt k f ns, P x := by
  intro x hx
  rcases mem_mapAt hx with h2 | ⟨y, hy, hxy⟩
  · exact h x h2
  · rw [hxy]
    exact hf y.1 y.2 (h y hy)

theorem allP_insertA_nodes {P : String × ASNode → Prop} {k : String} {n : ASNode}
    (hn : P (k, n)) {ns : List (String × ASNode)} (h : ∀ x ∈ ns, P x) :
    ∀ x ∈ insertA k n ns, P x :=
  fun x hx => (mem_insertA hx).elim (fun h2 => h2 ▸ hn) (h x)

theorem applyOne_nodes (acc : SimState × Bool) (u : Upd) :
    (applyOne acc u).1.nodes = acc.1.nodes ∨
    ∃ nb, lookupA u.to_as acc.1.nodes = some nb ∧
      (applyOne acc u).1.nodes =
        insertA u.to_as ((nb.receive_route u.adv u.from_as).1) acc.1.nodes := by
  obtain ⟨st, ch⟩ := acc
  rcases hl : lookupA u.to_as st.nodes with _ | nb
  · left
    unfold applyOne
    simp only [hl]
  · right
    refine ⟨nb, rfl, ?_⟩
    unfold applyOne
    simp only [hl]
    rcases hrc : nb.receive_route u.adv u.from_as with ⟨nb2, changed⟩
    simp only [hrc]
    split <;> rfl

theorem allP_applyOne {P : String × ASNode → Prop}
    (hrecv : ∀ a m r frm, P (a, m) → P (a, (m.receive_route r frm).1))
    (acc : SimState × Bool) (u : Upd) (h : ∀ x ∈ acc.1.nodes, P x) :
    ∀ x ∈ (applyOne acc u).1.nodes, P x := by
  rcases applyOne_nodes acc u with hn | ⟨nb, hl, hn⟩
  · rw [hn]
    exact h
  · rw [hn]
    exact allP_insertA_nodes (hrecv _ _ _ _ (h (u.to_as, nb) (lookupA_mem hl))) h

theorem allP_convergeRounds {P : String × ASNode → Prop}
    (hrecv : ∀ a m r frm, P (a, m) → P (a, (m.receive_route r frm).1)) :
    ∀ (fuel : Nat) (st : SimState), (∀ x ∈ st.nodes, P x) →
      ∀ x ∈ (convergeRounds fuel st).nodes, P x := by
  intro fuel
  induction fuel with
  | zero => intro st h; exact h
  | succ f ih =>
    intro st h
    have h1 : ∀ x ∈ ((stageUpdates (bumpStep st)).foldl applyOne (bumpStep st, false)).1.nodes, P x :=
      foldl_preserve (fun acc => ∀ x ∈ acc.1.nodes, P x)
        (fun acc u ha => allP_applyOne hrecv acc u ha) _ (bumpStep st, false) h
    simp only [convergeRounds]
    split
    · exact h1
    · split
      · exact ih _ h1
      · exact h1

theorem allP_originateAndLog {P : String × ASNode → Prop}
    (horig : ∀ a m p, P (a, m) → P (a, (m.originate_route p).1))
    (who det : String) (st : SimState) (p : String) (h : ∀ x ∈ st.nodes, P x) :
    ∀ x ∈ (originateAndLog who det st p).nodes, P x :=
  allP_mapAt (fun a m hm => horig a m p hm) h

theorem allP_run_baseline {P : String × ASNode → Prop}
    (horig : ∀ a m p, P (a, m) → P (a, (m.originate_route p).1))
    (hrecv : ∀ a m r frm, P (a, m) → P (a, (m.receive_route r frm).1))
    (cfg : Config) (st : SimState) (h : ∀ x ∈ st.nodes, P x) :
    ∀ x ∈ (run_baseline cfg st).nodes, P x := by
  unfold run_baseline propagate_until_convergence
  apply allP_convergeRounds hrecv
  exact foldl_preserve (fun st => ∀ x ∈ st.nodes, P x)
    (fun st p hp => allP_originateAndLog horig _ _ st p hp) _ _ h

theorem allP_run_hijack {P : String × ASNode → Prop}
    (horig : ∀ a m p, P (a, m) → P (a, (m.originate_route p).1))
    (hrecv : ∀ a m r frm, P (a, m) → P (a, (m.receive_route r frm).1))
    (cfg : Config) (st : SimState) (h : ∀ x ∈ st.nodes, P x) :
    ∀ x ∈ (run_hijack cfg st).nodes, P x := by
  unfold run_hijack
  rcases truthyStr cfg.hijacker with _ | hij
  · exact allP_run_baseline horig hrecv cfg st h
  · simp only [propagate_until_convergence]
    apply allP_convergeRounds hrecv
    apply foldl_preserve (fun st => ∀ x ∈ st.nodes, P x)
      (fun st p hp => allP_originateAndLog horig _ _ st p hp)
    apply allP_convergeRounds hrecv
    exact foldl_preserve (fun st => ∀ x ∈ st.nodes, P x)
      (fun st p hp => allP_originateAndLog horig _ _ st p hp) _ _ h

theorem allP_flapWithdraw {P : String × ASNode → Prop}
    (herase : ∀ a m p, P (a, m) → P (a, { m with rib := eraseA p m.rib }))
    (cfg : Config) (i : Nat) (st : SimState) (p : String) (h : ∀ x ∈ st.nodes, P x) :
    ∀ x ∈ (flapWithdraw cfg i st p).nodes, P x := by
  apply allP_mapAt (fun a m hm => ?_) h
  by_cases hc : containsA p m.rib
  · simpa [hc] using herase a m p hm
  · simpa [hc] using hm

theorem allP_run_route_flap {P : String × ASNode → Prop}
    (horig : ∀ a m p, P (a, m) → P (a, (m.originate_route p).1))
    (hrecv : ∀ a m r frm, P (a, m) → P (a, (m.receive_route r frm).1))
    (herase : ∀ a m p, P (a, m) → P (a, { m with rib := eraseA p m.rib }))
    (cfg : Config) (st : SimState) (h : ∀ x ∈ st.nodes, P x) :
    ∀ x ∈ (run_route_flap cfg st).nodes, P x := by
  unfold run_route_flap
  apply foldl_preserve (fun st : SimState => ∀ x ∈ st.nodes, P x) ?_ _ _ h
  intro st i hst
  simp only [propagate_until_convergence]
  apply allP_convergeRounds hrecv
  apply foldl_preserve (fun st => ∀ x ∈ st.nodes, P x)
    (fun st p hp => allP_flapWithdraw herase cfg i st p hp)
  apply allP_convergeRounds hrecv
  exact foldl_preserve (fun st => ∀ x ∈ st.nodes, P x)
    (fun st p hp => allP_originateAndLog horig _ _ st p hp) _ _ hst

theorem allP_build {P : String × ASNode → Prop}
    (hinit : ∀ a pol, P (a, ASNode.init a pol))
    (hadd : ∀ a m b, P (a, m) → P (a, m.add_neighbor b))
    (cfg : Config) (st : SimState) :
    ∀ x ∈ (build_topology cfg st).nodes, P x := by
  unfold build_topology
  apply foldl_preserve (fun ns => ∀ x ∈ ns, P x) ?_ _ _ ?_
  · intro ns l hns
    exact allP_mapAt (fun a m hm => hadd a m l.1 hm)
      (allP_mapAt (fun a m hm => hadd a m l.2 hm) hns)
  · apply foldl_preserve (fun ns => ∀ x ∈ ns, P x) ?_ _ _ ?_
    · intro ns a hns
      exact allP_insertA_nodes (hinit a _) hns
    · intro x hx
      simp at hx

theorem allP_runState {P : String × ASNode → Prop}
    (hinit : ∀ a pol, P (a, ASNode.init a pol))
    (hadd : ∀ a m b, P (a, m) → P (a, m.add_neighbor b))
    (horig : ∀ a m p, P (a, m) → P (a, (m.originate_route p).1))
    (hrecv : ∀ a m r frm, P (a, m) → P (a, (m.receive_route r frm).1))
    (herase : ∀ a m p, P (a, m) → P (a, { m with rib := eraseA p m.rib }))
    (cfg : Config) (st : SimState) (h : runState cfg = .ok st) :
    ∀ x ∈ st.nodes, P x := by
  have hbase : ∀ x ∈ (establish_sessions (build_topology cfg {})).nodes, P x :=
    allP_build hinit hadd cfg {}
  unfold runState at h
  by_cases h1 : cfg.scenario = "baseline"
  · rw [if_pos h1] at h
    cases h
    exact allP_run_baseline horig hrecv cfg _ hbase
  · rw [if_neg h1] at h
    by_cases h2 : cfg.scenario = "hijack"
    · rw [if_pos h2] at h
      cases h
      exact allP_run_hijack horig hrecv cfg _ hbase
    · rw [if_neg h2] at h
      by_cases h3 : cfg.scenario = "route_flap"
      · rw [if_pos h3] at h
        cases h
        exact allP_run_route_flap horig hrecv herase cfg _ hbase
      · rw [if_neg h3] at h
        cases h

theorem ribOkAtB_outside (n : ASNode) (p : String) (hp : p ∉ pfxKeys n) :
    ribOkAtB n p = true := by
  have hrib : lookupA p n.rib = none := by
    rcases hl : lookupA p n.rib with _ | r
    · rfl
    · exact absurd (List.mem_append_left _
        (List.mem_map.mpr ⟨(p, r), lookupA_mem hl, rfl⟩)) hp
  have hcand : candidatesFor n p = [] := by
    unfold candidatesFor
    rw [List.filterMap_eq_nil]
    intro qi hqi
    rcases hl : lookupA p qi.2 with _ | r
    · simp
    · exact absurd (List.mem_append_right _
        (List.mem_flatMap.mpr ⟨qi, hqi, List.mem_map.mpr ⟨(p, r), lookupA_mem hl, rfl⟩⟩)) hp
  unfold ribOkAtB
  rw [hcand, hrib]
  simp [ribOkData, select_best_route_nil]

theorem ribOkKeys_iff (n : ASNode) : ribOkKeys n ↔ ribOk n := by
  constructor
  · intro h p
    by_cases hp : p ∈ pfxKeys n
    · exact h p hp
    · exact ribOkAtB_outside n p hp
  · intro h p _
    exact h p

theorem ribOk_runState (cfg : Config) (st : SimState) (h : runState cfg = .ok st)
    (hs : cfg.scenario = "baseline" ∨ cfg.scenario = "hijack") :
    ∀ x ∈ st.nodes, ribOk x.2 := by
  have hbase : ∀ x ∈ (establish_sessions (build_topology cfg {})).nodes, emptyRibs x.2 :=
    allP_build (fun a pol => emptyRibs_init a pol)
      (fun a m b hm => emptyRibs_add_neighbor b hm) cfg {}
  have hbase2 : ∀ x ∈ (establish_sessions (build_topology cfg {})).nodes, ribOk x.2 :=
    fun x hx => ribOk_of_emptyRibs (hbase x hx)
  unfold runState at h
  rcases hs with hs | hs
  · rw [if_pos hs] at h
    cases h
    exact allP_run_baseline (fun a m p hm => ribOk_originate m p hm)
      (fun a m r frm hm => ribOk_receive m r frm hm) cfg _ hbase2
  · have h1 : ¬ cfg.scenario = "baseline" := by
      rw [hs]
      intro hcontra
      exact absurd hcontra (by decide)
    rw [if_neg h1, if_pos hs] at h
    cases h
    exact allP_run_hijack (fun a m p hm => ribOk_originate m p hm)
      (fun a m r frm hm => ribOk_receive m r frm hm) cfg _ hbase2

theorem selfOk_runState (cfg : Config) (st : SimState) (h : runState cfg = .ok st) :
    ∀ x ∈ st.nodes, x.2.asn = x.1 ∧ nodeSelfOk x.2 :=
  allP_runState
    (fun a pol => ⟨rfl, nodeSelfOk_init a pol⟩)
    (fun a m b hm => ⟨hm.1, nodeSelfOk_add_neighbor b hm.2⟩)
    (fun a m p hm => ⟨(asn_originate m p).trans hm.1, nodeSelfOk_originate m p hm.2⟩)
    (fun a m r frm hm => ⟨(asn_receive m r frm).trans hm.1, nodeSelfOk_receive m r frm hm.2⟩)
    (fun a m p hm => ⟨hm.1, nodeSelfOk_erase_rib m p hm.2⟩)
    cfg st h

theorem replicate_append_cons (k : Nat) (h : String) (t : List String) :
    List.replicate k h ++ h :: t = h :: (List.replicate k h ++ t) := by
  induction k with
  | zero => rfl
  | succ k ih =>
    rw [List.replicate_succ, List.cons_append, ih, List.cons_append]

theorem prependHead_cons (k : Nat) (h : String) (t : List String) (to_asn : String) :
    prependHead k (h :: t) to_asn = List.replicate k h ++ h :: t := by
  induction k generalizing t with
  | zero => rfl
  | succ k ih =>
    rw [prependHead, ih (h :: t), List.replicate_succ', List.append_assoc,
      List.singleton_append]

theorem routes_equal_iff (r1 r2 : Route) :
    routes_equal r1 r2 = true ↔
      (r1.as_path = r2.as_path ∧ r1.local_pref = r2.local_pref ∧ r1.origin = r2.origin) := by
  simp [routes_equal, Bool.and_eq_true, and_assoc]

theorem coverage_eq_zero {ribs : List (String × List (String × RouteDict))} {hij : String}
    (h : (coverageCounts ribs hij).1 = 0) :
    calculate_hijack_coverage ribs hij = 0 := by
  unfold calculate_hijack_coverage
  by_cases h2 : (coverageCounts ribs hij).2 > 0
  · rw [if_pos h2, h]
    simp
  · rw [if_neg h2]

theorem apply_export_none_iff (pol : Policy) (r : Route) (dst : String) :
    pol.apply_export r dst = none ↔
      ∃ af ∈ pol.export_filters, af.1 = "deny" ∧ af.2 = r.pfx := by
  by_cases h : pol.export_filters.any (fun af => af.1 = "deny" && af.2 = r.pfx)
  · simp only [Policy.apply_export, h, if_true, true_iff]
    obtain ⟨af, haf, hp⟩ := List.any_eq_true.mp h
    exact ⟨af, haf, by simpa using hp⟩
  · simp only [Policy.apply_export, h, Bool.false_eq_true, if_false]
    constructor
    · intro hcontra
      simp at hcontra
    · intro ⟨af, haf, h1, h2⟩
      exact absurd (List.any_eq_true.mpr ⟨af, haf, by simp [h1, h2]⟩) h

theorem rdp_frame (n : ASNode) (p : String) (old best : Route)
    (hold : lookupA p n.rib = some old)
    (hsel : select_best_route (candidatesFor n p) = some best) :
    ((n.run_decision_process p = (n, false)) ↔
      (old.as_path = best.as_path ∧ old.local_pref = best.local_pref ∧
        old.origin = best.origin)) ∧
    (routes_equal old best = false →
      n.run_decision_process p = ({ n with rib := insertA p best.clone n.rib }, true)) := by
  have hemp : ¬ (candidatesFor n p).isEmpty := by
    intro hcontra
    rw [List.isEmpty_iff.mp hcontra, select_best_route_nil] at hsel
    cases hsel
  by_cases heq : routes_equal old best
  · have hrun : n.run_decision_process p = (n, false) := by
      unfold ASNode.run_decision_process
      simp [hemp, hsel, hold, heq]
    constructor
    · rw [hrun]
      simp only [true_iff]
      exact (routes_equal_iff old best).mp heq
    · intro hcontra
      rw [heq] at hcontra
      cases hcontra
  · have hrun : n.run_decision_process p = ({ n with rib := insertA p best.clone n.rib }, true) := by
      unfold ASNode.run_decision_process
      simp [hemp, hsel, hold, heq]
    constructor
    · rw [hrun]
      constructor
      · intro hcontra
        have := congrArg Prod.snd hcontra
        simp at this
      · intro hfields
        exact absurd ((routes_equal_iff old best).mpr hfields) heq
    · intro _
      exact hrun

theorem receive_route_reject (n : ASNode) (r : Route) (frm : String)
    (h : r.has_loop n.asn = true ∨ nextHopFalsy r.next_hop = true) :
    n.receive_route r frm = (n, false) := by
  unfold ASNode.receive_route
  rcases h with h | h
  · simp [h]
  · by_cases hl : r.has_loop n.asn <;> simp [hl, h]

theorem add_neighbor_spec (n : ASNode) (peer : String) :
    lookupA peer (n.add_neighbor peer).rib_in = some [] ∧
    (n.add_neighbor peer).rib = n.rib ∧
    peer ∈ (n.add_neighbor peer).neighbors := by
  refine ⟨?_, rfl, ?_⟩
  · simp [ASNode.add_neighbor, lookupA_insertA]
  · unfold ASNode.add_neighbor insertS
    by_cases h : peer ∈ n.neighbors
    · simpa [h] using h
    · simp [h]

theorem prepare_advertisement_prepend (n : ASNode) (r : Route) (dst : String)
    (hfil : n.policy.export_filters.any (fun af => af.1 = "deny" && af.2 = r.pfx) = false)
    (hnh : ¬ r.next_hop = some dst)
    (h : String) (t : List String) (hpath : r.as_path = h :: t) :
    n.prepare_advertisement r dst =
      some { pfx := r.pfx,
             as_path :=
               if h = n.asn then List.replicate (n.policy.as_path_prepend + 1) n.asn ++ t
               else n.asn :: (List.replicate (n.policy.as_path_prepend + 1) h ++ t),
             origin := r.origin, local_pref := r.local_pref, med := r.med,
             next_hop := some n.asn } := by
  unfold ASNode.prepare_advertisement
  rw [if_neg hnh]
  unfold Policy.apply_export
  rw [hfil]
  simp only [Bool.false_eq_true, if_false]
  by_cases hk : n.policy.as_path_prepend > 0
  · rw [if_pos hk]
    simp only [Route.clone, hpath, prependHead_cons, replicate_append_cons]
    by_cases hh : h = n.asn
    · subst hh
      simp [List.replicate_succ]
    · simp [hh, List.replicate_succ]
  · rw [if_neg hk]
    have hk0 : n.policy.as_path_prepend = 0 := Nat.eq_zero_of_not_pos hk
    simp only [Route.clone, hpath, hk0]
    by_cases hh : h = n.asn
    · subst hh
      simp [List.replicate_succ]
    · simp [hh, List.replicate_succ]

theorem generate_results_hijackless (cfg : Config) (st : SimState)
    (h : truthyStr cfg.hijacker = none) :
    generate_results { cfg with scenario := "hijack" } st =
      generate_results { cfg with scenario := "baseline" } st := by
  unfold generate_results calculate_metrics
  simp [h]

theorem hijack_falls_back (cfg : Config) (h : truthyStr cfg.hijacker = none) :
    isOkE (run_simulation { cfg with scenario := "hijack" }) = true ∧
    run_simulation { cfg with scenario := "hijack" } =
      run_simulation { cfg with scenario := "baseline" } := by
  have hH : runState { cfg with scenario := "hijack" } =
      .ok (run_baseline { cfg with scenario := "hijack" }
        (establish_sessions (build_topology { cfg with scenario := "hijack" } {}))) := by
    unfold runState
    rw [if_neg (by simp), if_pos (by simp)]
    unfold run_hijack
    rw [show truthyStr ({ cfg with scenario := "hijack" } : Config).hijacker = none from h]
  have hB : runState { cfg with scenario := "baseline" } =
      .ok (run_baseline { cfg with scenario := "baseline" }
        (establish_sessions (build_topology { cfg with scenario := "baseline" } {}))) := by
    unfold runState
    rw [if_pos (by simp)]
  have hsame : run_baseline { cfg with scenario := "hijack" }
        (establish_sessions (build_topology { cfg with scenario := "hijack" } {})) =
      run_baseline { cfg with scenario := "baseline" }
        (establish_sessions (build_topology { cfg with scenario := "baseline" } {})) := rfl
  constructor
  · unfold run_simulation
    rw [hH]
    rfl
  · unfold run_simulation
    rw [hH, hB, hsame]
    simp only [Except.map]
    rw [generate_results_hijackless cfg _ h]

/-- Claim C1 (counterexample): in the linear three-AS baseline run, node
"200"'s rib entry for 10.0.1.0/24 does not have as_path ["200","100"]
and node "300"'s does not have ["300","200","100"]: a receiving node
stores the path exactly as advertised, without its own ASN. -/
theorem C1_counterexample :
    ribPath baseCfg "200" "10.0.1.0/24" ≠ some ["200", "100"] ∧
    ribPath baseCfg "300" "10.0.1.0/24" ≠ some ["300", "200", "100"] := by
  constructor <;> decide

/-- Claim C1 (amended): after the linear three-AS baseline run, node
"100"'s rib entry for 10.0.1.0/24 has as_path ["100"], node "200"'s has
as_path ["100"] (the origin's one-hop advertisement, stored as
received), and node "300"'s has as_path ["200","100"]. -/
theorem C1_amended :
    ribPath baseCfg "100" "10.0.1.0/24" = some ["100"] ∧
    ribPath baseCfg "200" "10.0.1.0/24" = some ["100"] ∧
    ribPath baseCfg "300" "10.0.1.0/24" = some ["200", "100"] := by
  refine ⟨?_, ?_, ?_⟩ <;> decide

/-- Claim C2 (counterexample): after the linear baseline run, the
origin node "100"'s rib entry for 10.0.1.0/24 has as_path ["100"],
which contains the node's own ASN — loop-freedom as stated fails at the
originating node. -/
theorem C2_counterexample :
    ribPath baseCfg "100" "10.0.1.0/24" = some ["100"] ∧
    "100" ∈ (["100"] : List String) := by
  constructor <;> decide

/-- Claim C2 (amended): after every simulation run, for every node and
every prefix with a route stored in that node's final rib, the route's
as_path either does not contain the node's own ASN, or is exactly the
one-element self-originated path [own ASN] (which occurs only at a node
that originated the prefix). -/
theorem C2_amended (cfg : Config) (res : SimResults)
    (hrun : run_simulation cfg = .ok res) :
    ∀ ard ∈ res.final_ribs, ∀ prd ∈ ard.2,
      ard.1 ∉ prd.2.as_path ∨ prd.2.as_path = [ard.1] := by
  intro ard hard prd hprd
  unfold run_simulation at hrun
  rcases hst : runState cfg with e | st
  · rw [hst] at hrun
    cases hrun
  · rw [hst] at hrun
    simp only [Except.map] at hrun
    cases hrun
    have hall := selfOk_runState cfg st hst
    unfold generate_results finalRibs at hard
    simp only at hard
    obtain ⟨an, han, hardeq⟩ := List.mem_map.mp hard
    obtain ⟨hasn, hself⟩ := hall an han
    subst hardeq
    simp only at hprd
    obtain ⟨pr, hpr, hprdeq⟩ := List.mem_map.mp hprd
    subst hprdeq
    have hro := hself.1 pr hpr
    have hpath : (pr.2.to_dict).as_path = pr.2.as_path := rfl
    rw [hpath]
    rcases hro with hro | hro
    · exact Or.inl (hasn ▸ hro)
    · exact Or.inr (hasn ▸ hro)

/-- Claim C2 (witness): the amended loop-freedom applied to node "300"
and its stored route ["200","100"] in the concrete baseline run. -/
theorem C2_witness :
    "300" ∉ (["200", "100"] : List String) ∨ (["200", "100"] : List String) = ["300"] :=
  C2_amended baseCfg (resOf baseCfg) rfl
    ("300", [("10.0.1.0/24",
      { pfx := "10.0.1.0/24", as_path := ["200", "100"], origin := "IGP",
        local_pref := 100, med := 0, next_hop := some "200" })])
    (by decide)
    ("10.0.1.0/24",
      { pfx := "10.0.1.0/24", as_path := ["200", "100"], origin := "IGP",
        local_pref := 100, med := 0, next_hop := some "200" })
    (by decide)

/-- Claim C5 (counterexample): with export_filters
[("permit","10.0.1.0/24"), ("deny","10.0.1.0/24")], a route for
10.0.1.0/24 is filtered even though the first matching entry is the
permit — apply_export ignores permit entries entirely. -/
theorem C5_counterexample :
    permitThenDenyPolicy.apply_export learnedFrom100 "200" = none := by
  decide

/-- Claim C5 (amended): apply_export filters a route iff some
("deny", P) entry with P equal to the route's prefix appears anywhere
in export_filters; permit entries are ignored (they neither shadow a
later deny nor matter at all), and absence of a matching deny permits. -/
theorem C5_amended (pol : Policy) (r : Route) (dst : String) :
    pol.apply_export r dst = none ↔
      ∃ af ∈ pol.export_filters, af.1 = "deny" ∧ af.2 = r.pfx :=
  apply_export_none_iff pol r dst

/-- Claim C10 (confirmed): add_neighbor(peer) unconditionally assigns a
fresh empty map to rib_in[peer] — discarding any routes previously
learned from that peer — while the rib (and thus entries previously
selected from those routes) is left unchanged, and peer is in the
neighbor set. -/
theorem C10_add_neighbor (n : ASNode) (peer : String) :
    lookupA peer (n.add_neighbor peer).rib_in = some [] ∧
    (n.add_neighbor peer).rib = n.rib ∧
    peer ∈ (n.add_neighbor peer).neighbors :=
  add_neighbor_spec n peer

/-- Claim C3 (counterexample): in the hijack run, node "200"'s final
rib entry for 10.0.1.0/24 does not carry the hijacker's path
["200","300"], and hijack_coverage_pct is 0, not strictly positive:
the deterministic tie-break (lowest peer identifier) favours the
origin's candidate. -/
theorem C3_counterexample :
    ribPath hijCfg "200" "10.0.1.0/24" ≠ some ["200", "300"] ∧
    hijackPctOf hijCfg = some 0 := by
  constructor
  · decide
  · have h1 : hijackPctOf hijCfg =
        some (calculate_hijack_coverage (finalRibs (stateOf hijCfg)) "300") := rfl
    rw [h1, coverage_eq_zero (by decide)]

/-- Claim C3 (amended): in the hijack run, node "200" keeps the
origin's route — as_path ["100"] learned from peer "100" — because the
candidates ["100"] (via peer "100") and ["300"] (via peer "300") tie on
local-pref, length and origin and the tie-break takes the
lexicographically lowest peer; the hijacker's own rib holds ["300"];
and hijack_coverage_pct equals 0. -/
theorem C3_amended :
    ribPath hijCfg "200" "10.0.1.0/24" = some ["100"] ∧
    ribNextHop hijCfg "200" "10.0.1.0/24" = some (some "100") ∧
    ribPath hijCfg "300" "10.0.1.0/24" = some ["300"] ∧
    hijackPctOf hijCfg = some 0 := by
  refine ⟨by decide, by decide, by decide, ?_⟩
  have h1 : hijackPctOf hijCfg =
      some (calculate_hijack_coverage (finalRibs (stateOf hijCfg)) "300") := rfl
  rw [h1, coverage_eq_zero (by decide)]

/-- Claim C4 (counterexample): node "200" with as_path_prepend = 2
exporting the learned route with as_path ["100"] produces
["200","100","100","100"]: the policy prepend duplicated the head
"100", not the exporter's own ASN, so the export carries one copy of
"200" instead of the claimed k+1 = 3 consecutive copies. -/
theorem C4_counterexample :
    (nodePrep2.prepare_advertisement learnedFrom100 "300").map (fun r => r.as_path) =
      some ["200", "100", "100", "100"] ∧
    (["200", "100", "100", "100"] : List String).count "200" = 1 := by
  constructor <;> decide

/-- Claim C4 (amended): with as_path_prepend = k on node N, the k
policy copies duplicate the current head of the exported route's
as_path, and the standard prepend then adds a single copy of N when the
head differs from N.  Hence an export of a route whose path starts with
h yields k+1 leading copies of N followed by the tail when h = N (the
self-originated case), and otherwise a single leading N followed by
k+1 copies of h and the tail. -/
theorem C4_amended (n : ASNode) (r : Route) (dst : String) (h : String) (t : List String)
    (hfil : n.policy.export_filters.any (fun af => af.1 = "deny" && af.2 = r.pfx) = false)
    (hnh : ¬ r.next_hop = some dst)
    (hpath : r.as_path = h :: t) :
    n.prepare_advertisement r dst =
      some { pfx := r.pfx,
             as_path :=
               if h = n.asn then List.replicate (n.policy.as_path_prepend + 1) n.asn ++ t
               else n.asn :: (List.replicate (n.policy.as_path_prepend + 1) h ++ t),
             origin := r.origin, local_pref := r.local_pref, med := r.med,
             next_hop := some n.asn } :=
  prepare_advertisement_prepend n r dst hfil hnh h t hpath

/-- Claim C4 (witness): the amended export law at node "200" with
prepend 2 exporting the learned route ["100"] to "300". -/
theorem C4_witness :
    nodePrep2.prepare_advertisement learnedFrom100 "300" =
      some { pfx := "10.0.1.0/24",
             as_path :=
               if "100" = "200" then List.replicate 3 "200" ++ ([] : List String)
               else "200" :: (List.replicate 3 "100" ++ []),
             origin := .IGP, local_pref := 100, med := 0, next_hop := some "200" } :=
  C4_amended nodePrep2 learnedFrom100 "300" "100" [] (by decide) (by decide) rfl

/-- Claim C6 (counterexample): three violations of the stated
invariant.  Re-adding neighbor "200" empties rib_in while the rib keeps
its entry (prefix in rib, no candidate); after a route_flap run the
origin "100" has a candidate in rib_in (its own origination) but no rib
entry; and after two receives from the same peer differing only in MED,
the stored rib value (med 5) is not equal to the decision process
output (med 7). -/
theorem C6_counterexample :
    (containsA "10.0.1.0/24" (nodeWithLearned.add_neighbor "200").rib = true ∧
      candidatesFor (nodeWithLearned.add_neighbor "200") "10.0.1.0/24" = []) ∧
    ((lookupA "100" (stateOf flapCfg).nodes).map
        (fun n => containsA "10.0.1.0/24" n.rib) = some false ∧
      (lookupA "100" (stateOf flapCfg).nodes).map
        (fun n => (candidatesFor n "10.0.1.0/24").isEmpty) = some false) ∧
    ((lookupA "p" nodeMedChurn.rib).map (fun r => r.med) = some 5 ∧
      (select_best_route (candidatesFor nodeMedChurn "p")).map (fun r => r.med) = some 7) := by
  refine ⟨⟨?_, ?_⟩, ⟨?_, ?_⟩, ⟨?_, ?_⟩⟩ <;> decide

/-- Claim C6 (amended): the rib/rib_in consistency invariant — a prefix
is in rib iff some peer's rib_in holds a candidate for it, with the
stored value equal to the decision-process output up to as_path,
local_pref and origin (next_hop and med may differ) — is preserved by
originate_route, receive_route and withdraw_route, and holds for every
node at the end of every baseline and hijack run.  (It is violated by
re-adding an existing neighbor and at the origin after route_flap's
direct rib deletion.) -/
theorem C6_amended :
    (∀ n p, ribOkKeys n → ribOkKeys ((ASNode.originate_route n p).1)) ∧
    (∀ n r frm, ribOkKeys n → ribOkKeys ((ASNode.receive_route n r frm).1)) ∧
    (∀ n p frm, ribOkKeys n → ribOkKeys ((ASNode.withdraw_route n p frm).1)) ∧
    (∀ cfg st, runState cfg = .ok st →
      (cfg.scenario = "baseline" ∨ cfg.scenario = "hijack") →
      ∀ an ∈ st.nodes, ribOkKeys an.2) := by
  refine ⟨?_, ?_, ?_, ?_⟩
  · intro n p h
    exact (ribOkKeys_iff _).mpr (ribOk_originate n p ((ribOkKeys_iff n).mp h))
  · intro n r frm h
    exact (ribOkKeys_iff _).mpr (ribOk_receive n r frm ((ribOkKeys_iff n).mp h))
  · intro n p frm h
    exact (ribOkKeys_iff _).mpr (ribOk_withdraw n p frm ((ribOkKeys_iff n).mp h))
  · intro cfg st hrun hs an han
    exact (ribOkKeys_iff _).mpr (ribOk_runState cfg st hrun hs an han)

/-- Claim C6 (witness): consistency is preserved when the concrete node
that already learned a route from "200" receives a further route from
"200". -/
theorem C6_witness :
    ribOkKeys nodeWithLearned ∧
    ribOkKeys ((ASNode.receive_route nodeWithLearned routeMed5 "200").1) :=
  ⟨by unfold ribOkKeys; decide,
    C6_amended.2.1 nodeWithLearned routeMed5 "200" (by unfold ribOkKeys; decide)⟩

/-- Claim C7 (confirmed): when the decision process has a best route
for a prefix already present in rib, it returns unchanged with the node
untouched iff the old and new routes agree on as_path, local_pref and
origin (differences in next_hop or med never count); otherwise it
installs a clone of the winner and returns changed. -/
theorem C7_decision_frame (n : ASNode) (p : String) (old best : Route)
    (hold : lookupA p n.rib = some old)
    (hsel : select_best_route (candidatesFor n p) = some best) :
    ((n.run_decision_process p = (n, false)) ↔
      (old.as_path = best.as_path ∧ old.local_pref = best.local_pref ∧
        old.origin = best.origin)) ∧
    (routes_equal old best = false →
      n.run_decision_process p = ({ n with rib := insertA p best.clone n.rib }, true)) :=
  rdp_frame n p old best hold hsel

/-- Claim C7 (witness): the unchanged-iff-equal law at the concrete
node that received the same path twice with different MEDs: the stored
med-5 route and the selected med-7 candidate agree on as_path,
local_pref and origin, so the decision process reports no change. -/
theorem C7_witness :
    (ASNode.run_decision_process nodeMedChurn "p" = (nodeMedChurn, false)) ↔
      ((Route.mk "p" ["200"] .IGP 100 5 (some "200")).as_path =
          (Route.mk "p" ["200"] .IGP 100 7 (some "200")).as_path ∧
        (Route.mk "p" ["200"] .IGP 100 5 (some "200")).local_pref =
          (Route.mk "p" ["200"] .IGP 100 7 (some "200")).local_pref ∧
        (Route.mk "p" ["200"] .IGP 100 5 (some "200")).origin =
          (Route.mk "p" ["200"] .IGP 100 7 (some "200")).origin) :=
  (C7_decision_frame nodeMedChurn "p"
    (Route.mk "p" ["200"] .IGP 100 5 (some "200"))
    (Route.mk "p" ["200"] .IGP 100 7 (some "200"))
    (by decide) (by decide)).1

/-- Claim C8 (confirmed): receive_route returns false and leaves the
node — rib and rib_in included — completely unchanged whenever the
incoming route's as_path contains the receiving node's own ASN or its
next_hop is unset (None or empty). -/
theorem C8_receive_reject (n : ASNode) (r : Route) (frm : String)
    (h : r.has_loop n.asn = true ∨ nextHopFalsy r.next_hop = true) :
    n.receive_route r frm = (n, false) :=
  receive_route_reject n r frm h

/-- Claim C8 (witness): ASNode "100" handed a route with as_path
["100","200"] and next_hop "200" rejects it, returning false with the
node untouched. -/
theorem C8_witness :
    (loopingRoute.has_loop node100.asn = true ∨
      nextHopFalsy loopingRoute.next_hop = true) ∧
    node100.receive_route loopingRoute "200" = (node100, false) :=
  ⟨Or.inl (by decide), C8_receive_reject node100 loopingRoute "200" (Or.inl (by decide))⟩

/-- Claim C9 (confirmed): run_simulation with scenario "hijack" but a
falsy hijacker (absent or empty) does not raise: it returns ok, and its
results are identical to those of the baseline scenario on the same
configuration. -/
theorem C9_hijack_fallback (cfg : Config) (h : truthyStr cfg.hijacker = none) :
    isOkE (run_simulation { cfg with scenario := "hijack" }) = true ∧
    run_simulation { cfg with scenario := "hijack" } =
      run_simulation { cfg with scenario := "baseline" } :=
  hijack_falls_back cfg h

/-- Claim C9 (witness): the fallback on the concrete linear three-AS
configuration with no hijacker configured. -/
theorem C9_witness :
    isOkE (run_simulation { hijacklessCfg with scenario := "hijack" }) = true ∧
    run_simulation { hijacklessCfg with scenario := "hijack" } =
      run_simulation { hijacklessCfg with scenario := "baseline" } :=
  C9_hijack_fallback hijacklessCfg rfl
